import Mathlib

/-!
# VendorHive storage layer: a shallow embedding

This file embeds the storage layer of the VendorHive marketplace backend
(`backend/src/middleware.ts`: classes `MemStorage` and `MongoDBStorage`,
plus the service-creation route of `backend/src/routes.ts` and the Mongoose
schemas of `backend/src/db.ts`) and proves properties of the embedded
operations.

Modelling conventions, fixed once for the whole file:

* The document store is modelled as schemaless BSON collections: a collection
  is a `List` of records in natural (insertion) order, `findOne` returns the
  first match, and query values compare by BSON equality — a number equals a
  number of the same value, a string equals an equal string, and an ObjectId
  equals the same ObjectId; values of different BSON types are never equal.
  Mongoose schema casting and strict-mode field dropping are not modelled.
* JavaScript numbers that can be corrupted are modelled by `JsVal`
  (number / NaN / string / undefined); ordinary ids that the code itself
  issues are plain `Int`.
* `Number(x)` is modelled by `toNumber` returning `Option Int` (`none` = NaN),
  restricted to integer-literal strings: the concrete strings appearing in
  this development are either integer literals or clearly non-numeric.
* `Math.round(a / b)` on integers is `mathRound a b`, rounding half toward
  positive infinity exactly as JavaScript does; the quotients arising here
  are exact rationals with small numerators, where double arithmetic is exact.
* Case-insensitive regex / `toLowerCase().includes` matching is modelled by
  `lcContains` (ASCII lowering, literal substring; regex metacharacters are
  not modelled — the queries considered are plain words).
* `Date` values are modelled as `Nat` ticks supplied by the state (`now`).
* The user collection is written only by `createUser`, which stores a
  `joinedAt` field and never a `createdAt` field (the Mongoose `userSchema`
  in `db.ts` likewise has `joinedAt` and no `createdAt` and no timestamps
  option).  Hence `UserModel.findOne().sort(createdAt: -1)` sorts on a field
  absent from every document: all sort keys tie, MongoDB returns documents
  in an unspecified order, and we model the tie-break as the collection's
  natural order, so the query returns the *first stored* user.
-/

/-- A loose JavaScript value, for fields that may be corrupted: a finite
number, NaN, a string, or undefined. -/
inductive JsVal where
  | num (n : Int)
  | nan
  | str (s : String)
  | undef
  deriving DecidableEq, Repr

/-- JavaScript `x + 1`: numbers add, strings concatenate, `undefined + 1`
and `NaN + 1` are NaN. -/
def jsAdd1 : JsVal → JsVal
  | .num n => .num (n + 1)
  | .nan => .nan
  | .str s => .str (s ++ "1")
  | .undef => .nan

/-- Integer-literal string parse: `Number(s)` for the strings used here.
The empty string coerces to 0 as in JavaScript. -/
def strToNumber (s : String) : Option Int :=
  if s = "" then some 0
  else if s.toList.all (fun c => c.isDigit) then some (s.toNat!)
  else none

/-- `Number(v)` for a loose value; `none` models NaN. -/
def jsToNumber : JsVal → Option Int
  | .num n => some n
  | .nan => none
  | .str s => strToNumber s
  | .undef => none

/-- JavaScript `String(v)`. -/
def jsToString : JsVal → String
  | .num n => toString n
  | .nan => "NaN"
  | .str s => s
  | .undef => "undefined"

/-- JavaScript truthiness of a loose value. -/
def jsTruthy : JsVal → Bool
  | .num n => n != 0
  | .nan => false
  | .str s => s != ""
  | .undef => false

/-- A user-reference value as it travels through payloads and documents:
a number, a plain string, or a BSON ObjectId (rendered by its 24-character
hex string). -/
inductive Ref where
  | num (n : Int)
  | str (s : String)
  | oid (s : String)
  deriving DecidableEq, Repr

/-- `String(ref)`; an ObjectId stringifies to its hex string. -/
def Ref.toStr : Ref → String
  | .num n => toString n
  | .str s => s
  | .oid s => s

/-- `Number(ref)`; an ObjectId coerces like its hex string (non-numeric
for real ObjectIds). -/
def Ref.toNumber : Ref → Option Int
  | .num n => some n
  | .str s => strToNumber s
  | .oid s => strToNumber s

/-- JavaScript truthiness of a reference value. -/
def Ref.truthy : Ref → Bool
  | .num n => n != 0
  | .str s => s != ""
  | .oid _ => true

/-- BSON equality of a stored reference against a queried loose value. -/
def Ref.eqJs : Ref → JsVal → Bool
  | .num n, .num m => n == m
  | .str s, .str t => s == t
  | _, _ => false

/-- The BSON type rank used by MongoDB sorts: undefined, then NaN, then
numbers, then strings. -/
def JsVal.bsonRank : JsVal → Nat
  | .undef => 0
  | .nan => 1
  | .num _ => 2
  | .str _ => 3

/-- MongoDB sort order on loose values: numbers by value, strings
lexicographically, values of different BSON types by type rank. -/
def JsVal.bsonLt : JsVal → JsVal → Bool
  | .num a, .num b => a < b
  | .str a, .str b => a < b
  | a, b => a.bsonRank < b.bsonRank

/-- `Math.round(a / b)` for integers `a` and `b > 0`: round half toward
positive infinity, computed exactly. -/
def mathRound (a b : Int) : Int :=
  Int.fdiv (2 * a + b) (2 * b)

/-- Contiguous-sublist test on character lists (JavaScript
`String.prototype.includes`). -/
def charsContain (hay needle : List Char) : Bool :=
  match hay with
  | [] => needle.isEmpty
  | c :: t => needle.isPrefixOf (c :: t) || charsContain t needle

/-- ASCII `toLowerCase` on one character. -/
def lowerChar (c : Char) : Char :=
  if 65 ≤ c.toNat && c.toNat ≤ 90 then Char.ofNat (c.toNat + 32) else c

/-- Case-insensitive substring test: `hay.toLowerCase().includes(q.toLowerCase())`,
also the model of matching `new RegExp(q, i)` for a metacharacter-free `q`. -/
def lcContains (hay q : String) : Bool :=
  charsContain (hay.toList.map lowerChar) (q.toList.map lowerChar)

/-- The `if (!x) x = next()` chaining of the resolution cascades: keep the
first hit, otherwise try the next lookup. -/
def orElseO {α : Type} (a b : Option α) : Option α :=
  match a with
  | some u => some u
  | none => b

/-! ## The in-memory implementation (`MemStorage`, middleware.ts lines 128-363)

JavaScript `Map` semantics: `set` on an existing key updates it in place
keeping its position, a new key is appended; `values()` iterates in insertion
order; `get`/`delete` are exact key matches.  A map is modelled as a list of
key-value pairs in insertion order. -/

/-- `Map.prototype.get`. -/
def mapGet {α : Type} (m : List (Nat × α)) (k : Nat) : Option α :=
  (m.find? (fun p => p.1 == k)).map (fun p => p.2)

/-- `Map.prototype.set`. -/
def mapSet {α : Type} (m : List (Nat × α)) (k : Nat) (v : α) : List (Nat × α) :=
  if m.any (fun p => p.1 == k) then
    m.map (fun p => if p.1 == k then (k, v) else p)
  else m ++ [(k, v)]

/-- `Map.prototype.delete`, returning the shrunk map and whether the key
was present. -/
def mapDelete {α : Type} (m : List (Nat × α)) (k : Nat) : List (Nat × α) × Bool :=
  (m.filter (fun p => p.1 != k), m.any (fun p => p.1 == k))

/-- `Map.prototype.values()` as a list, in insertion order. -/
def mapValues {α : Type} (m : List (Nat × α)) : List α :=
  m.map (fun p => p.2)

namespace Mem

/-- `User` of shared/schema.ts.  The optional inert profile fields
(profileImage, phone, bio, location) take part in no modelled operation and
are omitted. -/
structure User where
  id : Nat
  name : String
  username : String
  email : String
  password : String
  role : String
  joinedAt : Nat
  deriving DecidableEq, Repr

/-- `Vendor` of shared/schema.ts (services, businessHours and coverImage are
inert in every modelled operation and omitted).  In `MemStorage` the stored
`userId` is used as a `Map` key, hence `Nat`. -/
structure Vendor where
  id : Nat
  userId : Nat
  businessName : String
  category : String
  description : String
  rating : Int
  reviewCount : Int
  deriving DecidableEq, Repr

/-- `Service` of shared/schema.ts (optional inert fields omitted). -/
structure Service where
  id : Nat
  vendorId : Nat
  name : String
  category : String
  description : String
  price : String
  availability : Bool
  createdAt : Nat
  deriving DecidableEq, Repr

/-- `Booking` of shared/schema.ts. -/
structure Booking where
  id : Nat
  userId : Nat
  vendorId : Nat
  serviceId : Option Nat
  date : Nat
  status : String
  notes : Option String
  deriving DecidableEq, Repr

/-- `Review` of shared/schema.ts. -/
structure Review where
  id : Nat
  userId : Nat
  vendorId : Nat
  rating : Int
  comment : Option String
  createdAt : Nat
  deriving DecidableEq, Repr

/-- `InsertUser` (insertUserSchema). -/
structure InsertUser where
  name : String
  username : String
  email : String
  password : String
  role : String
  deriving DecidableEq, Repr

/-- `InsertVendor` (insertVendorSchema), with `MemStorage`'s numeric key use. -/
structure InsertVendor where
  userId : Nat
  businessName : String
  category : String
  description : String
  deriving DecidableEq, Repr

/-- `InsertService` (insertServiceSchema). -/
structure InsertService where
  vendorId : Nat
  name : String
  category : String
  description : String
  price : String
  availability : Bool
  deriving DecidableEq, Repr

/-- `InsertBooking` (insertBookingSchema). -/
structure InsertBooking where
  userId : Nat
  vendorId : Nat
  serviceId : Option Nat
  date : Nat
  status : String
  notes : Option String
  deriving DecidableEq, Repr

/-- `InsertReview` (insertReviewSchema). -/
structure InsertReview where
  userId : Nat
  vendorId : Nat
  rating : Int
  comment : Option String
  deriving DecidableEq, Repr

/-- The private fields of a `MemStorage` instance, plus a model clock `now`
supplying `new Date()`. -/
structure State where
  users : List (Nat × User)
  vendors : List (Nat × Vendor)
  services : List (Nat × Service)
  bookings : List (Nat × Booking)
  reviews : List (Nat × Review)
  userIdCounter : Nat
  vendorIdCounter : Nat
  serviceIdCounter : Nat
  bookingIdCounter : Nat
  reviewIdCounter : Nat
  now : Nat
  deriving Repr

/-- The freshly constructed `MemStorage`. -/
def State.init : State :=
  ⟨[], [], [], [], [], 1, 1, 1, 1, 1, 0⟩

/-- `MemStorage.getUser`. -/
def getUser (s : State) (id : Nat) : Option User :=
  mapGet s.users id

/-- `MemStorage.createUser`. -/
def createUser (s : State) (iu : InsertUser) : State × User :=
  let id := s.userIdCounter
  let user : User :=
    ⟨id, iu.name, iu.username, iu.email, iu.password, iu.role, s.now⟩
  ({ s with users := mapSet s.users id user, userIdCounter := id + 1 }, user)

/-- `MemStorage.updateUser` (the `Partial` spread is modelled by an arbitrary
field-update function `f`; `Partial InsertUser` has no `id` field, so a
faithful `f` never changes `id`, but no theorem below needs that). -/
def updateUser (s : State) (id : Nat) (f : User → User) : State × Option User :=
  match mapGet s.users id with
  | none => (s, none)
  | some u =>
      let u' := f u
      ({ s with users := mapSet s.users id u' }, some u')

/-- `MemStorage.getVendor`: exact map lookups on vendor id and then on the
stored `userId`; `undefined` when either misses. -/
def getVendor (s : State) (id : Nat) : Option (Vendor × User) :=
  match mapGet s.vendors id with
  | none => none
  | some vendor =>
      match mapGet s.users vendor.userId with
      | none => none
      | some user => some (vendor, user)

/-- `MemStorage.getVendorByUserId`: first vendor whose stored `userId`
equals the argument. -/
def getVendorByUserId (s : State) (userId : Nat) : Option Vendor :=
  (mapValues s.vendors).find? (fun v => v.userId == userId)

/-- `MemStorage.createVendor`: no user resolution at all; stores the
submitted `userId` unchanged, rating 0, reviewCount 0. -/
def createVendor (s : State) (iv : InsertVendor) : State × Vendor :=
  let id := s.vendorIdCounter
  let vendor : Vendor :=
    ⟨id, iv.userId, iv.businessName, iv.category, iv.description, 0, 0⟩
  ({ s with vendors := mapSet s.vendors id vendor, vendorIdCounter := id + 1 }, vendor)

/-- `MemStorage.updateVendor`. -/
def updateVendor (s : State) (id : Nat) (f : Vendor → Vendor) : State × Option Vendor :=
  match mapGet s.vendors id with
  | none => (s, none)
  | some v =>
      let v' := f v
      ({ s with vendors := mapSet s.vendors id v' }, some v')

/-- `MemStorage.getAllVendors`: joins each vendor with `users.get(userId)`,
silently skipping vendors whose user is absent. -/
def getAllVendors (s : State) : List (Vendor × User) :=
  (mapValues s.vendors).filterMap (fun v =>
    (mapGet s.users v.userId).map (fun u => (v, u)))

/-- `MemStorage.searchVendors`: one pass over the vendors; a vendor with a
missing user is skipped, otherwise it is kept when the lowered query occurs
in its businessName, category, description, or the joined user's name. -/
def searchVendors (s : State) (query : String) : List (Vendor × User) :=
  (mapValues s.vendors).filterMap (fun v =>
    match mapGet s.users v.userId with
    | none => none
    | some u =>
        if lcContains v.businessName query || lcContains v.category query ||
            lcContains v.description query || lcContains u.name query then
          some (v, u)
        else none)

/-- `MemStorage.createService`. -/
def createService (s : State) (isv : InsertService) : State × Service :=
  let id := s.serviceIdCounter
  let sv : Service :=
    ⟨id, isv.vendorId, isv.name, isv.category, isv.description, isv.price,
      isv.availability, s.now⟩
  ({ s with services := mapSet s.services id sv, serviceIdCounter := id + 1 }, sv)

/-- `MemStorage.getServiceById`. -/
def getServiceById (s : State) (id : Nat) : Option Service :=
  mapGet s.services id

/-- `MemStorage.updateService`. -/
def updateService (s : State) (id : Nat) (f : Service → Service) :
    State × Option Service :=
  match mapGet s.services id with
  | none => (s, none)
  | some sv =>
      let sv' := f sv
      ({ s with services := mapSet s.services id sv' }, some sv')

/-- `MemStorage.deleteService`. -/
def deleteService (s : State) (id : Nat) : State × Bool :=
  let (m, hit) := mapDelete s.services id
  ({ s with services := m }, hit)

/-- `MemStorage.createBooking`. -/
def createBooking (s : State) (ib : InsertBooking) : State × Booking :=
  let id := s.bookingIdCounter
  let b : Booking := ⟨id, ib.userId, ib.vendorId, ib.serviceId, ib.date, ib.status, ib.notes⟩
  ({ s with bookings := mapSet s.bookings id b, bookingIdCounter := id + 1 }, b)

/-- `MemStorage.updateBookingStatus`: unconditional overwrite of `status`
when the booking exists, `undefined` otherwise. -/
def updateBookingStatus (s : State) (id : Nat) (status : String) :
    State × Option Booking :=
  match mapGet s.bookings id with
  | none => (s, none)
  | some b =>
      let b' := { b with status := status }
      ({ s with bookings := mapSet s.bookings id b' }, some b')

/-- `MemStorage.getReviewsByVendorId`: the vendor's reviews joined with
their reviewers; a review whose reviewer is absent is dropped. -/
def getReviewsByVendorId (s : State) (vendorId : Nat) : List (Review × User) :=
  ((mapValues s.reviews).filter (fun r => r.vendorId == vendorId)).filterMap
    (fun r => (mapGet s.users r.userId).map (fun u => (r, u)))

/-- `MemStorage.createReview`, exactly as written: the review is inserted
into the map *first*, then `getReviewsByVendorId` (which now already contains
it) is read back and the vendor's aggregates are set to
`reviewCount = fetched.length + 1` and
`rating = Math.round((fetched ratings sum + new rating) / reviewCount)`. -/
def createReview (s : State) (ir : InsertReview) : State × Review :=
  let id := s.reviewIdCounter
  let review : Review := ⟨id, ir.userId, ir.vendorId, ir.rating, ir.comment, s.now⟩
  let s1 : State :=
    { s with reviews := mapSet s.reviews id review, reviewIdCounter := id + 1 }
  let vendorReviews := getReviewsByVendorId s1 ir.vendorId
  match mapGet s1.vendors ir.vendorId with
  | none => (s1, review)
  | some vendor =>
      let reviewCount : Int := vendorReviews.length + 1
      let totalRating := (vendorReviews.map (fun p => p.1.rating)).sum + ir.rating
      let averageRating := mathRound totalRating reviewCount
      let vendor' := { vendor with rating := averageRating, reviewCount := reviewCount }
      ({ s1 with vendors := mapSet s1.vendors ir.vendorId vendor' }, review)

/-- `MemStorage.getAverageRatingByVendorId`: the true rounded mean of the
joined review set, 0 when empty. -/
def getAverageRatingByVendorId (s : State) (vendorId : Nat) : Int :=
  let vendorReviews := getReviewsByVendorId s vendorId
  if vendorReviews.length = 0 then 0
  else mathRound ((vendorReviews.map (fun p => p.1.rating)).sum) vendorReviews.length

end Mem

/-! ## The document-store implementation (`MongoDBStorage`, middleware.ts
lines 366-1233)

Collections are lists in natural (insertion) order; `findOne` takes the
first match; `findOne().sort(id: -1)` takes the record with the greatest
`id` (the first such in natural order on ties); `findById` matches the
native `_id`; `findOneAndUpdate` / `deleteOne` touch the first match only. -/

namespace Mongo

/-- A stored user document.  `_id` is `oid`; the application-level `id`
field is a loose value so that the string-equality lookup strategies are
representable.  Optional inert profile fields are omitted. -/
structure MUser where
  oid : String
  id : JsVal
  name : String
  username : String
  email : String
  password : String
  role : String
  joinedAt : Nat
  deriving DecidableEq, Repr

/-- A stored vendor document (inert optional fields omitted).  `userId` is
the user reference, stored inconsistently across writers: an ObjectId,
a number, or a string. -/
structure MVendor where
  id : Int
  userId : Ref
  businessName : String
  category : String
  description : String
  rating : Int
  reviewCount : Int
  deriving DecidableEq, Repr

/-- A stored service document (inert optional fields omitted). -/
structure MService where
  id : Int
  vendorId : Int
  name : String
  category : String
  description : String
  price : String
  createdAt : Nat
  deriving DecidableEq, Repr

/-- A stored booking document. -/
structure MBooking where
  id : Int
  userId : Ref
  vendorId : Int
  serviceId : Option Int
  date : Nat
  status : String
  notes : Option String
  deriving DecidableEq, Repr

/-- A stored review document. -/
structure MReview where
  id : Int
  userId : JsVal
  vendorId : Int
  rating : Int
  comment : Option String
  createdAt : Nat
  deriving DecidableEq, Repr

/-- The five collections, each in natural (insertion) order, plus the model
clock. -/
structure State where
  users : List MUser
  vendors : List MVendor
  services : List MService
  bookings : List MBooking
  reviews : List MReview
  now : Nat
  deriving Repr

/-- `UserModel.findById(v)`: a cast of the value to an ObjectId followed by
a `_id` match; a number fails the cast (the surrounding try/catch turns the
CastError into no user).  24-character strings are taken as castable. -/
def findById (users : List MUser) : Ref → Option MUser
  | .oid s => users.find? (fun u => u.oid == s)
  | .str s => users.find? (fun u => u.oid == s)
  | .num _ => none

/-- `UserModel.findOne().sort(createdAt: -1)`: no stored user has a
`createdAt` field (`createUser` writes `joinedAt`; so does `userSchema`),
so every sort key ties and the store returns its natural first document. -/
def mostRecentUserQuery (users : List MUser) : Option MUser :=
  users.head?

/-- The record with the greatest `id` (first such on ties):
`findOne().sort(id: -1)` over a collection whose ids are numbers. -/
def lastByIdDesc {α : Type} (idOf : α → Int) : List α → Option α
  | [] => none
  | r :: t =>
      match lastByIdDesc idOf t with
      | none => some r
      | some b => if idOf r < idOf b then some b else some r

/-- `findOne().sort(id: -1)` over a collection whose `id` fields are loose
values, using BSON sort order (first of the greatest on ties). -/
def lastByIdDescJs {α : Type} (idOf : α → JsVal) : List α → Option α
  | [] => none
  | r :: t =>
      match lastByIdDescJs idOf t with
      | none => some r
      | some b => if JsVal.bsonLt (idOf r) (idOf b) then some b else some r

/-- Update the first record satisfying `p` (what `findOneAndUpdate` does). -/
def updateFirst {α : Type} (p : α → Bool) (f : α → α) : List α → List α
  | [] => []
  | x :: t => if p x then f x :: t else x :: updateFirst p f t

/-- Remove the first record satisfying `p` (what `deleteOne` does). -/
def removeFirst {α : Type} (p : α → Bool) : List α → List α
  | [] => []
  | x :: t => if p x then t else x :: removeFirst p t

/-- `MongoDBStorage.createUser`: id from `lastUser ? lastUser.id + 1 : 1`
over the id-sorted collection — no validity check on the existing id, so a
corrupted greatest id propagates through JavaScript `+ 1` — then insert with
a fresh native `_id` and `joinedAt = new Date()`. -/
def createUser (st : State) (iu : Mem.InsertUser) (freshOid : String) :
    State × MUser :=
  let id : JsVal :=
    match lastByIdDescJs (fun u : MUser => u.id) st.users with
    | none => .num 1
    | some lastUser => jsAdd1 lastUser.id
  let user : MUser :=
    ⟨freshOid, id, iu.name, iu.username, iu.email, iu.password, iu.role, st.now⟩
  ({ st with users := st.users ++ [user] }, user)

/-- The user-resolution cascade of `MongoDBStorage.getVendor`
(middleware.ts lines 456-503), *without* the final fallback: ObjectId
lookup when `String(userId)` has length 24, then numeric-id lookup when
`userId` is a number, then string-equality lookup on the id field. -/
def getVendorUserDirect (users : List MUser) (vendor : MVendor) : Option MUser :=
  let u1 : Option MUser :=
    if vendor.userId.truthy && (vendor.userId.toStr.length == 24) then
      findById users vendor.userId
    else none
  let u2 : Option MUser :=
    orElseO u1
      (match vendor.userId with
        | .num n => users.find? (fun u => u.id == JsVal.num n)
        | _ => none)
  orElseO u2
    (if vendor.userId.truthy then
      users.find? (fun u => u.id == JsVal.str vendor.userId.toStr)
    else none)

/-- `MongoDBStorage.getVendor`: vendor by numeric id, then the three-strategy
user cascade, then the most-recent-user fallback; `undefined` only when the
vendor id is unknown or the cascade misses with an empty user collection. -/
def getVendor (st : State) (id : Int) : Option (MVendor × MUser) :=
  match st.vendors.find? (fun v => v.id == id) with
  | none => none
  | some vendor =>
      (orElseO (getVendorUserDirect st.users vendor) (mostRecentUserQuery st.users)).map
        (fun user => (vendor, user))

/-- The per-vendor user cascade shared verbatim by
`MongoDBStorage.getAllVendors` (lines 731-764) and
`MongoDBStorage.searchVendors` (lines 803-836): ObjectId lookup when
`userId` is an object or a 24-character string, then numeric-id lookup,
then string-equality lookup.  No fallback. -/
def listUserDirect (users : List MUser) (vendor : MVendor) : Option MUser :=
  let u1 : Option MUser :=
    match vendor.userId with
    | .oid _ => findById users vendor.userId
    | .str s => if s.length == 24 then findById users vendor.userId else none
    | .num _ => none
  let u2 : Option MUser :=
    orElseO u1
      (match vendor.userId with
        | .num n => users.find? (fun u => u.id == JsVal.num n)
        | _ => none)
  orElseO u2
    (if vendor.userId.truthy then
      users.find? (fun u => u.id == JsVal.str vendor.userId.toStr)
    else none)

/-- `MongoDBStorage.getAllVendors`: every vendor joined through the direct
cascade; a vendor whose cascade misses is skipped (no fallback). -/
def getAllVendors (st : State) : List (MVendor × MUser) :=
  st.vendors.filterMap (fun v => (listUserDirect st.users v).map (fun u => (v, u)))

/-- The vendor-for-user lookups of `searchVendors`' user-name pass
(lines 855-878): vendor by `userId = user.id`, then by `userId = user._id`,
then by `userId = String(user.id)` (the last only when `user.id` is truthy). -/
def vendorForUser (vendors : List MVendor) (u : MUser) : Option MVendor :=
  let v1 := vendors.find? (fun v => v.userId.eqJs u.id)
  let v2 := orElseO v1 (vendors.find? (fun v => v.userId == Ref.oid u.oid))
  orElseO v2
    (if jsTruthy u.id then
      vendors.find? (fun v => v.userId == Ref.str (jsToString u.id))
    else none)

/-- `MongoDBStorage.searchVendors`: vendors whose businessName, category or
description matches the case-insensitive query, joined through the direct
cascade (no fallback); then every vendor of a user whose *name* matches,
appended unless a vendor with the same id is already in the results. -/
def searchVendors (st : State) (query : String) : List (MVendor × MUser) :=
  let base :=
    (st.vendors.filter (fun v =>
        lcContains v.businessName query || lcContains v.category query ||
          lcContains v.description query)).filterMap
      (fun v => (listUserDirect st.users v).map (fun u => (v, u)))
  let nameUsers := st.users.filter (fun u => lcContains u.name query)
  nameUsers.foldl (fun results u =>
    match vendorForUser st.vendors u with
    | none => results
    | some v =>
        if results.any (fun r => r.1.id == v.id) then results
        else results ++ [(v, u)]) base

/-- The user-resolution cascade of `MongoDBStorage.createVendor`
(lines 631-674) *including* the most-recent-user fallback: ObjectId lookup
for 24-character strings, then numeric lookup whenever `Number(userId)` is
not NaN, then string-equality lookup for strings, then the fallback. -/
def createVendorResolveUser (users : List MUser) (userId : Ref) : Option MUser :=
  let u1 : Option MUser :=
    match userId with
    | .str s => if s.length == 24 then findById users (.str s) else none
    | _ => none
  let u2 : Option MUser :=
    orElseO u1
      (match userId.toNumber with
        | some n => users.find? (fun u => u.id == JsVal.num n)
        | none => none)
  let u3 : Option MUser :=
    orElseO u2
      (match userId with
        | .str s => users.find? (fun u => u.id == JsVal.str s)
        | _ => none)
  orElseO u3 (mostRecentUserQuery users)

/-- `InsertVendor` as the Mongo implementation receives it: the
user reference is a loose payload value. -/
structure InsertVendorM where
  userId : Ref
  businessName : String
  category : String
  description : String
  deriving DecidableEq, Repr

/-- `MongoDBStorage.createVendor`: next id = (greatest existing vendor id)+1
with a NaN guard (vendor ids in this typed state are always numbers, so the
guard collapses; see `createVendorNextId` for the raw-record version), the
user cascade with fallback, construction error when even the fallback finds
no user; the stored reference is the resolved user's `_id`. -/
def createVendor (st : State) (iv : InsertVendorM) :
    Except String (State × MVendor) :=
  let nextId : Int :=
    match lastByIdDesc (fun v : MVendor => v.id) st.vendors with
    | none => 1
    | some lastVendor => lastVendor.id + 1
  match createVendorResolveUser st.users iv.userId with
  | none => .error "User not found and no fallback available"
  | some user =>
      let vendor : MVendor :=
        ⟨nextId, .oid user.oid, iv.businessName, iv.category, iv.description, 0, 0⟩
      .ok ({ st with vendors := st.vendors ++ [vendor] }, vendor)

/-- `MongoDBStorage.updateVendor` (`findOneAndUpdate` on the numeric id,
`Partial` spread modelled by a field-update function). -/
def updateVendor (st : State) (id : Int) (f : MVendor → MVendor) :
    State × Option MVendor :=
  match st.vendors.find? (fun v => v.id == id) with
  | none => (st, none)
  | some v =>
      ({ st with vendors := updateFirst (fun v' => v'.id == id) f st.vendors },
        some (f v))

/-- `MongoDBStorage.updateUser`. -/
def updateUser (st : State) (id : Int) (f : MUser → MUser) :
    State × Option MUser :=
  match st.users.find? (fun u => u.id == JsVal.num id) with
  | none => (st, none)
  | some u =>
      ({ st with users := updateFirst (fun u' => u'.id == JsVal.num id) f st.users },
        some (f u))

/-- `getVendorByUserId`'s classification of its argument as an
ObjectId-shaped string (lines 523-526). -/
def guMongoObjectId (userId : Ref) : Option String :=
  match userId with
  | .str s => if s.length == 24 then some s else none
  | _ => none

/-- `getVendorByUserId`'s classification of its argument as a numeric id
(lines 527-531); an ObjectId-shaped string is never classified numeric
(`else if`). -/
def guNumericId (userId : Ref) : Option Int :=
  match guMongoObjectId userId with
  | some _ => none
  | none => userId.toNumber

/-- `getVendorByUserId` strategy 1 (lines 538-548): vendor whose stored
reference equals the ObjectId-shaped string. -/
def guStrat1 (st : State) (userId : Ref) : Option MVendor :=
  match guMongoObjectId userId with
  | some s => st.vendors.find? (fun v => v.userId == Ref.str s)
  | none => none

/-- `getVendorByUserId` strategy 2 (lines 551-560): user by (truthy)
numeric id, then vendor by that user's `_id`. -/
def guStrat2 (st : State) (userId : Ref) : Option MVendor :=
  match guNumericId userId with
  | some n =>
      if n != 0 then
        match st.users.find? (fun u => u.id == JsVal.num n) with
        | some user => st.vendors.find? (fun v => v.userId == Ref.oid user.oid)
        | none => none
      else none
  | none => none

/-- `getVendorByUserId` strategy 3 (lines 563-576): user by `findById` on
the ObjectId-shaped string, then vendor by that user's `_id`. -/
def guStrat3 (st : State) (userId : Ref) : Option MVendor :=
  match guMongoObjectId userId with
  | some s =>
      match findById st.users (.str s) with
      | some user => st.vendors.find? (fun v => v.userId == Ref.oid user.oid)
      | none => none
  | none => none

/-- `getVendorByUserId` strategy 4 (lines 579-585): vendor whose stored
reference is the (truthy) numeric id itself. -/
def guStrat4 (st : State) (userId : Ref) : Option MVendor :=
  match guNumericId userId with
  | some n =>
      if n != 0 then st.vendors.find? (fun v => v.userId == Ref.num n)
      else none
  | none => none

/-- `MongoDBStorage.getVendorByUserId` (lines 515-611): the four lookup
strategies in order, and `undefined` — with no fallback — when all miss. -/
def getVendorByUserId (st : State) (userId : Ref) : Option MVendor :=
  orElseO (orElseO (orElseO (guStrat1 st userId) (guStrat2 st userId))
    (guStrat3 st userId)) (guStrat4 st userId)

/-- `InsertService` for the Mongo implementation: `vendorId` arrives as a
loose payload value and is validated by `Number`/`isNaN`. -/
structure InsertServiceM where
  vendorId : Ref
  name : String
  category : String
  description : String
  price : String
  deriving DecidableEq, Repr

/-- `MongoDBStorage.createService`: naive id allocation
(`lastService ? lastService.id + 1 : 1`), `Number(vendorId)` with an
immediate error on NaN, then insert. -/
def createService (st : State) (isv : InsertServiceM) :
    Except String (State × MService) :=
  let id : Int :=
    match lastByIdDesc (fun s : MService => s.id) st.services with
    | none => 1
    | some lastService => lastService.id + 1
  match isv.vendorId.toNumber with
  | none => .error "Invalid vendor ID"
  | some vendorId =>
      let sv : MService := ⟨id, vendorId, isv.name, isv.category, isv.description, isv.price, st.now⟩
      .ok ({ st with services := st.services ++ [sv] }, sv)

/-- `MongoDBStorage.getServiceById`. -/
def getServiceById (st : State) (id : Int) : Option MService :=
  st.services.find? (fun s => s.id == id)

/-- `MongoDBStorage.getServicesByVendorId`. -/
def getServicesByVendorId (st : State) (vendorId : Int) : List MService :=
  st.services.filter (fun s => s.vendorId == vendorId)

/-- `MongoDBStorage.updateService`. -/
def updateService (st : State) (id : Int) (f : MService → MService) :
    State × Option MService :=
  match st.services.find? (fun s => s.id == id) with
  | none => (st, none)
  | some s =>
      ({ st with services := updateFirst (fun s' => s'.id == id) f st.services },
        some (f s))

/-- `MongoDBStorage.deleteService`: `deleteOne` on the numeric id; `true`
exactly when something was deleted. -/
def deleteService (st : State) (id : Int) : State × Bool :=
  match st.services.find? (fun s => s.id == id) with
  | none => (st, false)
  | some _ =>
      ({ st with services := removeFirst (fun s => s.id == id) st.services }, true)

/-- `MongoDBStorage.updateBookingStatus`: unconditional `$set` of the status
on the first booking with the id; `undefined` when there is none. -/
def updateBookingStatus (st : State) (id : Int) (status : String) :
    State × Option MBooking :=
  match st.bookings.find? (fun b => b.id == id) with
  | none => (st, none)
  | some b =>
      ({ st with bookings :=
          updateFirst (fun b' => b'.id == id) (fun b' => { b' with status := status }) st.bookings },
        some { b with status := status })

/-- `MongoDBStorage.getReviewsByVendorId`: the vendor's reviews joined with
`UserModel.findOne(id: review.userId)`; reviews whose reviewer is not found
are dropped. -/
def getReviewsByVendorId (st : State) (vendorId : Int) : List (MReview × MUser) :=
  (st.reviews.filter (fun r => r.vendorId == vendorId)).filterMap
    (fun r => (st.users.find? (fun u => u.id == r.userId)).map (fun u => (r, u)))

/-- `InsertReview` for the Mongo implementation. -/
structure InsertReviewM where
  userId : JsVal
  vendorId : Ref
  rating : Int
  comment : Option String
  deriving DecidableEq, Repr

/-- `MongoDBStorage.createReview`, exactly as written: naive id allocation,
`Number(vendorId)` with an error on NaN, *save the review*, then read the
vendor's joined reviews back (the new review is already among them) and set
`reviewCount = fetched.length + 1`,
`rating = Math.round((fetched ratings sum + new rating) / reviewCount)`
on the vendor. -/
def createReview (st : State) (ir : InsertReviewM) :
    Except String (State × MReview) :=
  let id : Int :=
    match lastByIdDesc (fun r : MReview => r.id) st.reviews with
    | none => 1
    | some lastReview => lastReview.id + 1
  match ir.vendorId.toNumber with
  | none => .error "Invalid vendor ID"
  | some vendorId =>
      let review : MReview := ⟨id, ir.userId, vendorId, ir.rating, ir.comment, st.now⟩
      let st1 : State := { st with reviews := st.reviews ++ [review] }
      let vendorReviews := getReviewsByVendorId st1 vendorId
      match st1.vendors.find? (fun v => v.id == vendorId) with
      | none => .ok (st1, review)
      | some _ =>
          let reviewCount : Int := vendorReviews.length + 1
          let totalRating := (vendorReviews.map (fun p => p.1.rating)).sum + ir.rating
          let averageRating := mathRound totalRating reviewCount
          let vendors' :=
            updateFirst (fun v => v.id == vendorId)
              (fun v => { v with rating := averageRating, reviewCount := reviewCount })
              st1.vendors
          .ok ({ st1 with vendors := vendors' }, review)

/-- `MongoDBStorage.getAverageRatingByVendorId`: rounded mean over the raw
(unjoined) review set, 0 when empty. -/
def getAverageRatingByVendorId (st : State) (vendorId : Int) : Int :=
  let reviews := st.reviews.filter (fun r => r.vendorId == vendorId)
  if reviews.length = 0 then 0
  else mathRound ((reviews.map (fun r => r.rating)).sum) reviews.length

end Mongo

/-! ## The identifier allocators over raw records

The five creation operations allocate ids with two different patterns.  To
state the corrupted-id tolerance question, the patterns are embedded over
raw records that carry only their (possibly corrupted or missing) `id`
field. -/

/-- A stored record reduced to its loose `id` field. -/
structure RawRec where
  id : JsVal
  deriving DecidableEq, Repr

/-- `MongoDBStorage.createUser` id allocation (line 413-414):
`lastUser ? lastUser.id + 1 : 1` — JavaScript `+ 1` on whatever the
greatest `id` is, with no validity check. -/
def createUserNextId (users : List RawRec) : JsVal :=
  match Mongo.lastByIdDescJs (fun r : RawRec => r.id) users with
  | none => .num 1
  | some lastUser => jsAdd1 lastUser.id

/-- `MongoDBStorage.createVendor` id allocation (lines 616-624):
`Number(lastVendor.id)` with an `isNaN` guard falling back to 1. -/
def createVendorNextId (vendors : List RawRec) : JsVal :=
  match Mongo.lastByIdDescJs (fun r : RawRec => r.id) vendors with
  | none => .num 1
  | some lastVendor =>
      match jsToNumber lastVendor.id with
      | some lastId => .num (lastId + 1)
      | none => .num 1

/-- `MongoDBStorage.createService` id allocation (lines 905-906): the same
unchecked `lastService ? lastService.id + 1 : 1`. -/
def createServiceNextId (services : List RawRec) : JsVal :=
  match Mongo.lastByIdDescJs (fun r : RawRec => r.id) services with
  | none => .num 1
  | some lastService => jsAdd1 lastService.id

/-- `MongoDBStorage.createBooking` id allocation (lines 982-983), unchecked. -/
def createBookingNextId (bookings : List RawRec) : JsVal :=
  match Mongo.lastByIdDescJs (fun r : RawRec => r.id) bookings with
  | none => .num 1
  | some lastBooking => jsAdd1 lastBooking.id

/-- `MongoDBStorage.createReview` id allocation (lines 1053-1054), unchecked. -/
def createReviewNextId (reviews : List RawRec) : JsVal :=
  match Mongo.lastByIdDescJs (fun r : RawRec => r.id) reviews with
  | none => .num 1
  | some lastReview => jsAdd1 lastReview.id

/-! ## The service-creation route (`POST /api/services`, routes.ts 629-734) -/

namespace Routes

/-- The authenticated requester as the route sees it (`req.user`, from the
JWT): the id value, display name, and role. -/
structure AuthUser where
  id : Ref
  name : String
  role : String
  deriving DecidableEq, Repr

/-- The service fields of the request body (after zod validation). -/
structure ServiceBody where
  name : String
  category : String
  description : String
  price : String
  deriving DecidableEq, Repr

/-- routes.ts `getNextServiceId`: greatest service id + 1, guarded by the
id's truthiness and `isNaN(Number(id))` (ids here are numbers, so only the
truthiness guard bites, at id 0). -/
def getNextServiceId (st : Mongo.State) : Int :=
  match Mongo.lastByIdDesc (fun s : Mongo.MService => s.id) st.services with
  | none => 1
  | some lastService => if lastService.id != 0 then lastService.id + 1 else 1

/-- The `POST /api/services` handler: look the requester's vendor profile up
by user id; if it is missing and the requester's role is `vendor`,
auto-provision a default vendor profile (businessName derived from the
display name, category "General Services", default description) through
`storage.createVendor` and create the service against the new vendor's id;
if a profile exists, create the service against its id.  The handler's
`serviceData.vendorId !== Number(vendor.id)` double-check compares the value
it itself just set and never fires; the `id` it passes in the payload is
overwritten by `createService`'s own allocation; the `nextVendorId` it
computes in the provisioning branch is never used — none of the three is
modelled beyond this note. -/
def postApiServices (st : Mongo.State) (au : AuthUser) (body : ServiceBody) :
    Mongo.State × Except String Mongo.MService :=
  match Mongo.getVendorByUserId st au.id with
  | some vendor =>
      match Mongo.createService st ⟨Ref.num vendor.id, body.name, body.category, body.description, body.price⟩ with
      | .ok (st', sv) => (st', .ok sv)
      | .error e => (st, .error e)
  | none =>
      if au.role == "vendor" then
        let businessName :=
          if au.name != "" then au.name ++ "\'s Business" else "New Business"
        match Mongo.createVendor st ⟨au.id, businessName, "General Services", "A new vendor on VendorHive"⟩ with
        | .error e => (st, .error e)
        | .ok (st1, newVendor) =>
            match Mongo.createService st1 ⟨Ref.num newVendor.id, body.name, body.category, body.description, body.price⟩ with
            | .ok (st2, sv) => (st2, .ok sv)
            | .error e => (st1, .error e)
      else (st, .error "Vendor profile not found and user is not a vendor")

end Routes

/-! ## State correspondence and auxiliary definitions -/

/-- Whether an `Except` result is a success. -/
def exceptIsOk {ε α : Type} : Except ε α → Bool
  | .ok _ => true
  | .error _ => false

/-- An ObjectId-typed reference carrying a genuine 24-character string (true
of every ObjectId MongoDB ever mints). -/
def Ref.oidOk : Ref → Bool
  | .oid s => s.length == 24
  | _ => true

/-- The document-store image of an in-memory user: the numeric id kept in
the `id` field, a native `_id` chosen by `oids`. -/
def userToMongo (oids : Nat → String) (u : Mem.User) : Mongo.MUser :=
  ⟨oids u.id, .num u.id, u.name, u.username, u.email, u.password, u.role, u.joinedAt⟩

/-- The document-store image of an in-memory vendor (numeric user
reference). -/
def vendorToMongo (v : Mem.Vendor) : Mongo.MVendor :=
  ⟨v.id, .num v.userId, v.businessName, v.category, v.description, v.rating, v.reviewCount⟩

/-- The document-store image of an in-memory review. -/
def reviewToMongo (r : Mem.Review) : Mongo.MReview :=
  ⟨r.id, .num r.userId, r.vendorId, r.rating, r.comment, r.createdAt⟩

/-- The document-store image of an in-memory service. -/
def serviceToMongo (s : Mem.Service) : Mongo.MService :=
  ⟨s.id, s.vendorId, s.name, s.category, s.description, s.price, s.createdAt⟩

/-- The document-store image of an in-memory booking. -/
def bookingToMongo (b : Mem.Booking) : Mongo.MBooking :=
  ⟨b.id, .num b.userId, b.vendorId, b.serviceId.map (fun n => (n : Int)), b.date, b.status, b.notes⟩

/-- The document store holding exactly the content of an in-memory state. -/
def memToMongo (oids : Nat → String) (s : Mem.State) : Mongo.State :=
  ⟨(mapValues s.users).map (userToMongo oids),
    (mapValues s.vendors).map vendorToMongo,
    (mapValues s.services).map serviceToMongo,
    (mapValues s.bookings).map bookingToMongo,
    (mapValues s.reviews).map reviewToMongo,
    s.now⟩

/-- Well-formedness of a reachable `MemStorage` state: every map key is its
record's id, vendor keys are unique, and the review counter exceeds every
existing review key.  All hold by construction along any run from
`State.init`. -/
structure Mem.WF (s : Mem.State) : Prop where
  userKeys : ∀ p ∈ s.users, (p.2 : Mem.User).id = p.1
  vendorKeys : ∀ p ∈ s.vendors, (p.2 : Mem.Vendor).id = p.1
  reviewKeys : ∀ p ∈ s.reviews, (p.2 : Mem.Review).id = p.1
  vendorNodup : (s.vendors.map Prod.fst).Nodup
  reviewFresh : ∀ p ∈ s.reviews, p.1 < s.reviewIdCounter

/-- The greatest element of an integer list, `none` when empty. -/
def maxIntList : List Int → Option Int
  | [] => none
  | x :: t =>
      match maxIntList t with
      | none => some x
      | some m => some (max x m)

/-- The numeric ids of a raw collection, corrupted entries skipped. -/
def numIds (recs : List RawRec) : List Int :=
  recs.filterMap (fun r => match r.id with | .num n => some n | _ => none)

/-! ## Concrete stores used by the scenario theorems -/

namespace Ex

/-- A native reference (24 characters). -/
def oidA : String := "aaaaaaaaaaaaaaaaaaaaaaaa"

/-- A second native reference. -/
def oidB : String := "bbbbbbbbbbbbbbbbbbbbbbbb"

/-- 24 decimal digits: ObjectId-shaped and numeric-coercible at once. -/
def digits24 : String := "123456789012345678901234"

def u1 : Mongo.MUser := ⟨oidA, .num 1, "Alice", "alice", "alice@mail.com", "pw1", "vendor", 0⟩

def u2 : Mongo.MUser := ⟨oidB, .num 2, "Bobby Smith", "bobby", "bobby@mail.com", "pw2", "vendor", 1⟩

/-- A user whose numeric id field holds the value of `digits24`. -/
def uBig : Mongo.MUser := ⟨oidB, .num 123456789012345678901234, "Carol", "carol", "carol@mail.com", "pw3", "user", 2⟩

/-- A user whose native reference is the digit string `digits24`. -/
def uDigits : Mongo.MUser := ⟨digits24, .num 3, "Dana", "dana", "dana@mail.com", "pw4", "user", 3⟩

/-- A vendor whose stored user reference matches no user by any direct
strategy. -/
def vOrphan : Mongo.MVendor := ⟨1, .num 999, "Glass Repair", "Repair", "We fix glass panes", 0, 0⟩

/-- One user, one unresolvable vendor. -/
def stOrphan : Mongo.State := ⟨[u1], [vOrphan], [], [], [], 5⟩

/-- Two users (`u2` stored last), no vendors. -/
def stTwoUsers : Mongo.State := ⟨[u1, u2], [], [], [], [], 5⟩

/-- The empty store. -/
def stEmpty : Mongo.State := ⟨[], [], [], [], [], 0⟩

/-- Alice's vendor profile, linked by her native reference. -/
def vAlice : Mongo.MVendor := ⟨1, .oid oidA, "Alice Catering", "Food", "Catering for all events", 0, 0⟩

/-- The review scenario start: Alice and her fresh vendor profile. -/
def stReview0 : Mongo.State := ⟨[u1], [vAlice], [], [], [], 7⟩

/-- The store after the first review (rating 5). -/
def mongoAfter1 : Mongo.State :=
  match Mongo.createReview stReview0 ⟨.num 1, .num 1, 5, none⟩ with
  | .ok (st, _) => st
  | .error _ => stReview0

/-- The store after the second review (rating 1). -/
def mongoAfter2 : Mongo.State :=
  match Mongo.createReview mongoAfter1 ⟨.num 1, .num 1, 1, none⟩ with
  | .ok (st, _) => st
  | .error _ => mongoAfter1

def mu1 : Mem.User := ⟨1, "Alice", "alice", "alice@mail.com", "pw1", "vendor", 0⟩

def mu2 : Mem.User := ⟨2, "Bobby Smith", "bobby", "bobby@mail.com", "pw2", "vendor", 1⟩

def mv1 : Mem.Vendor := ⟨1, 1, "Alice Catering", "Food", "Catering for all events", 0, 0⟩

/-- The in-memory review scenario start. -/
def memReview0 : Mem.State := ⟨[(1, mu1)], [(1, mv1)], [], [], [], 2, 2, 1, 1, 1, 7⟩

def memAfter1 : Mem.State := (Mem.createReview memReview0 ⟨1, 1, 5, none⟩).1

def memAfter2 : Mem.State := (Mem.createReview memAfter1 ⟨1, 1, 1, none⟩).1

/-- An in-memory vendor whose stored userId matches no user. -/
def mvOrphan : Mem.Vendor := ⟨1, 999, "Glass Repair", "Repair", "We fix glass panes", 0, 0⟩

def memOrphan : Mem.State := ⟨[(1, mu1)], [(1, mvOrphan)], [], [], [], 2, 2, 1, 1, 1, 5⟩

/-- V1 of the search scenario: "bob" occurs in its own businessName. -/
def mvBob1 : Mem.Vendor := ⟨1, 1, "Bobs Plumbing", "Plumbing", "Pipes fixed fast", 4, 9⟩

/-- V2 of the search scenario: owned by Bobby Smith, no "bob" in its own
fields. -/
def mvBob2 : Mem.Vendor := ⟨2, 2, "Smith Gardening", "Gardening", "Lawns and hedges", 5, 3⟩

def memBob : Mem.State :=
  ⟨[(1, mu1), (2, mu2)], [(1, mvBob1), (2, mvBob2)], [], [], [], 3, 3, 1, 1, 1, 9⟩

/-- A document-store vendor matching "bob" in its own fields, with no
resolvable owner. -/
def vBobNoOwner : Mongo.MVendor := ⟨1, .num 7, "Bobs Plumbing", "Plumbing", "Pipes fixed fast", 0, 0⟩

def stBobNoOwner : Mongo.State := ⟨[], [vBobNoOwner], [], [], [], 3⟩

/-- The document-store search scenario: V1 matches by businessName, V2 only
through Bobby Smith's name. -/
def vBob1M : Mongo.MVendor := ⟨1, .oid oidA, "Bobs Plumbing", "Plumbing", "Pipes fixed fast", 4, 9⟩

def vBob2M : Mongo.MVendor := ⟨2, .oid oidB, "Smith Gardening", "Gardening", "Lawns and hedges", 5, 3⟩

def stBobM : Mongo.State := ⟨[u1, u2], [vBob1M, vBob2M], [], [], [], 9⟩

/-- A vendor whose stored reference is the digit string `digits24`: the
reference is ObjectId-shaped and numeric-coercible at once. -/
def vDigits : Mongo.MVendor := ⟨1, .str digits24, "Digit Services", "Misc", "All things digits", 0, 0⟩

/-- The C6 start: Alice (a vendor-role user) with no vendor profile. -/
def stC6 : Mongo.State := ⟨[u1], [], [], [], [], 4⟩

/-- A non-vendor requester whose reference matches no vendor of `stBobM`. -/
def auEve : Routes.AuthUser := ⟨.num 5, "Eve", "user"⟩

def auAlice : Routes.AuthUser := ⟨.num 1, "Alice", "vendor"⟩

def bodyLawn : Routes.ServiceBody := ⟨"Lawn mowing", "Garden", "We mow lawns quickly", "20"⟩

end Ex

/-! # Theorems

First a few shared lemmas about the option-chaining combinator, maps and
list searches; then the claims C1-C10 in order. -/

theorem orElseO_none_left {α : Type} (b : Option α) : orElseO none b = b := rfl

theorem orElseO_some_left {α : Type} (u : α) (b : Option α) :
    orElseO (some u) b = some u := rfl

theorem orElseO_eq_none_iff {α : Type} {a b : Option α} :
    orElseO a b = none ↔ a = none ∧ b = none := by
  cases a <;> simp [orElseO]

theorem orElseO_eq_some_iff {α : Type} {a b : Option α} {u : α} :
    orElseO a b = some u ↔ a = some u ∨ (a = none ∧ b = some u) := by
  cases a <;> simp [orElseO]

theorem orElseO_isSome_right {α : Type} (a : Option α) (u : α) :
    (orElseO a (some u)).isSome = true := by
  cases a <;> simp [orElseO]

theorem mem_of_findById {users : List Mongo.MUser} {r : Ref} {u : Mongo.MUser}
    (h : Mongo.findById users r = some u) : u ∈ users := by
  cases r with
  | num n => simp [Mongo.findById] at h
  | str s => exact List.mem_of_find?_eq_some h
  | oid s => exact List.mem_of_find?_eq_some h

/-- A state with no users resolves nothing by any direct strategy of the
`getVendor` cascade. -/
theorem getVendorUserDirect_nil (v : Mongo.MVendor) :
    Mongo.getVendorUserDirect [] v = none := by
  unfold Mongo.getVendorUserDirect
  cases h : v.userId with
  | num n => simp [Mongo.findById, orElseO, h]
  | str s =>
      simp only [h]
      split <;> simp [Mongo.findById, orElseO, h]
  | oid s =>
      simp only [h]
      split <;> simp [Mongo.findById, orElseO, h]

/-- A state with no users resolves nothing in the `createVendor` cascade
either (the fallback included). -/
theorem createVendorResolveUser_nil (r : Ref) :
    Mongo.createVendorResolveUser [] r = none := by
  unfold Mongo.createVendorResolveUser
  cases r with
  | num n => simp [Mongo.findById, orElseO, Mongo.mostRecentUserQuery, Ref.toNumber]
  | str s =>
      cases hn : strToNumber s <;>
        simp [Mongo.findById, orElseO, Mongo.mostRecentUserQuery, Ref.toNumber, hn]
  | oid s =>
      cases hn : strToNumber s <;>
        simp [Mongo.findById, orElseO, Mongo.mostRecentUserQuery, Ref.toNumber, hn]

/-- **C1** (code bug): the claimed invariant `reviewCount == N` and
`rating == round(mean of the N ratings)` fails at the spec's own scenario,
in both implementations, because `createReview` inserts the review before
re-reading the review set and then counts the new review a second time
(`fetched.length + 1`, `fetched sum + new rating`).  On a vendor with one
review of rating 5 both stores record `rating = 5, reviewCount = 2`
(claimed: 1); after a second review of rating 1 they record
`rating = 2, reviewCount = 3` (claimed: `rating = 3, reviewCount = 2`).
`getAverageRatingByVendorId`, which recomputes the true rounded mean 3 from
the same store, contradicts the persisted rating 2 — the formula
`length + 1` / `sum + rating` is written for a pre-insert snapshot, so the
insert-first ordering is a slip, not a design. -/
theorem c1_createReview_double_counts_at_failing_input :
    ((mapGet Ex.memAfter1.vendors 1).map (fun v => (v.rating, v.reviewCount)) =
        some (5, 2)) ∧
    ((mapGet Ex.memAfter2.vendors 1).map (fun v => (v.rating, v.reviewCount)) =
        some (2, 3)) ∧
    Mem.getAverageRatingByVendorId Ex.memAfter2 1 = 3 ∧
    ((Ex.mongoAfter1.vendors.find? (fun v => v.id == 1)).map
        (fun v => (v.rating, v.reviewCount)) = some (5, 2)) ∧
    ((Ex.mongoAfter2.vendors.find? (fun v => v.id == 1)).map
        (fun v => (v.rating, v.reviewCount)) = some (2, 3)) ∧
    Mongo.getAverageRatingByVendorId Ex.mongoAfter2 1 = 3 :=
  ⟨rfl, rfl, rfl, rfl, rfl, rfl⟩

/-- **C2** (counterexample): with one user stored and one vendor whose
reference resolves by no direct strategy, `getVendor` still returns the
vendor (fallback user Alice), but `getAllVendors` and `searchVendors`
silently exclude it although a user exists — so exclusion is *not* limited
to the zero-user store, and the three operations do not apply the same
four-strategy cascade. -/
theorem c2_counterexample_list_joins_lack_fallback :
    Ex.stOrphan.users ≠ [] ∧
    Mongo.getAllVendors Ex.stOrphan = [] ∧
    Mongo.searchVendors Ex.stOrphan "glass" = [] ∧
    Mongo.getVendor Ex.stOrphan 1 = some (Ex.vOrphan, Ex.u1) :=
  ⟨by decide, rfl, rfl, rfl⟩

/-- **C3** (counterexample): the fallback's
`findOne().sort(createdAt: -1)` sorts on a field no stored user has
(users carry `joinedAt`), so it returns the store's natural first document:
with Alice stored before Bobby, an unresolvable reference falls back to
Alice, not to the most-recently-created user Bobby. -/
theorem c3_counterexample_fallback_not_most_recent :
    Mongo.createVendorResolveUser [Ex.u1, Ex.u2] (.num 999) = some Ex.u1 ∧
    [Ex.u1, Ex.u2].getLast? = some Ex.u2 ∧
    Ex.u1 ≠ Ex.u2 :=
  ⟨rfl, rfl, by decide⟩

/-- **C4** (counterexample): only `createVendor` guards its allocator with
`isNaN`; the other creation operations apply JavaScript `+ 1` to whatever
the greatest stored id is, so a corrupted maximum id produces a corrupted
next id ("abc" + 1 = "abc1", undefined + 1 = NaN) instead of the claimed
uniform fallback to 1. -/
theorem c4_counterexample_guard_only_in_createVendor :
    createUserNextId [⟨.str "abc"⟩] = .str "abc1" ∧
    createUserNextId [⟨.str "abc"⟩] ≠ .num 1 ∧
    createServiceNextId [⟨.undef⟩] = .nan ∧
    createBookingNextId [⟨.undef⟩] = .nan ∧
    createReviewNextId [⟨.str "abc"⟩] = .str "abc1" ∧
    createVendorNextId [⟨.str "abc"⟩] = .num 1 ∧
    createVendorNextId [⟨.undef⟩] = .num 1 :=
  ⟨rfl, by decide, rfl, rfl, rfl, rfl, rfl⟩

/-- **C5** (counterexample): on the *same* logical store (the document
store is the exact image of the in-memory store under `memToMongo`), the
two implementations disagree: for a vendor with an unresolvable user
reference the Mongo `getVendor` answers with the fallback user while the
in-memory `getVendor` answers not-found; and on an empty store the Mongo
`createVendor` fails (no fallback user) while the in-memory `createVendor`
succeeds without any resolution. -/
theorem c5_counterexample_not_observationally_equivalent :
    memToMongo (fun _ => Ex.oidA) Ex.memOrphan = Ex.stOrphan ∧
    Mem.getVendor Ex.memOrphan 1 = none ∧
    Mongo.getVendor Ex.stOrphan 1 = some (Ex.vOrphan, Ex.u1) ∧
    memToMongo (fun _ => Ex.oidA) Mem.State.init = Ex.stEmpty ∧
    exceptIsOk (Mongo.createVendor Ex.stEmpty
      ⟨.num 1, "Glass Repair", "Repair", "We fix glass panes"⟩) = false ∧
    (Mem.createVendor Mem.State.init
      ⟨1, "Glass Repair", "Repair", "We fix glass panes"⟩).2 =
      ⟨1, 1, "Glass Repair", "Repair", "We fix glass panes", 0, 0⟩ :=
  ⟨rfl, rfl, rfl, rfl, rfl, rfl⟩

/-- **C2** (amended): the three joined reads share the same three *direct*
resolution strategies — the `getVendor` cascade and the
`getAllVendors`/`searchVendors` cascade agree on every vendor whose ObjectId
references are genuine 24-character ones — but only `getVendor` adds the
most-recent-user fallback: a vendor appears in `getAllVendors` exactly when
some direct strategy resolves its user (so it is dropped there even when
users exist), while `getVendor` returns not-found only when the vendor id is
unknown, or no direct strategy hits and the user collection is empty. -/
theorem c2_amended_shared_direct_cascade_fallback_only_in_getVendor :
    (∀ (users : List Mongo.MUser) (v : Mongo.MVendor), v.userId.oidOk = true →
      Mongo.getVendorUserDirect users v = Mongo.listUserDirect users v) ∧
    (∀ (st : Mongo.State) (v : Mongo.MVendor) (u : Mongo.MUser),
      (v, u) ∈ Mongo.getAllVendors st ↔
        v ∈ st.vendors ∧ Mongo.listUserDirect st.users v = some u) ∧
    (∀ (st : Mongo.State) (id : Int),
      Mongo.getVendor st id = none ↔
        (st.vendors.find? (fun v => v.id == id) = none ∨
          (∃ v, st.vendors.find? (fun v' => v'.id == id) = some v ∧
            Mongo.getVendorUserDirect st.users v = none ∧ st.users = []))) := by
  refine ⟨?_, ?_, ?_⟩
  · intro users v hok
    unfold Mongo.getVendorUserDirect Mongo.listUserDirect
    cases hv : v.userId with
    | num n =>
        simp [Mongo.findById, Ref.truthy, Ref.toStr, orElseO]
    | str s =>
        by_cases h24 : (s.length == 24) = true
        · have h24' : s.length = 24 := by simpa using h24
          have hne : (s != "") = true := by
            rw [bne_iff_ne]
            intro he
            rw [he] at h24'
            exact absurd h24' (by decide)
          simp [Mongo.findById, Ref.truthy, Ref.toStr, h24, hne]
        · simp at h24
          simp [Mongo.findById, Ref.truthy, Ref.toStr, h24]
    | oid s =>
        have h24 : (s.length == 24) = true := by
          simpa [Ref.oidOk, hv] using hok
        simp [Mongo.findById, Ref.truthy, Ref.toStr, h24]
  · intro st v u
    unfold Mongo.getAllVendors
    rw [List.mem_filterMap]
    constructor
    · rintro ⟨a, ha, hfa⟩
      rcases Option.map_eq_some'.1 hfa with ⟨w, hw, hp⟩
      injection hp with h1 h2
      subst h1; subst h2
      exact ⟨ha, hw⟩
    · rintro ⟨hv, hu⟩
      exact ⟨v, hv, by rw [hu]; rfl⟩
  · intro st id
    unfold Mongo.getVendor
    cases hfind : st.vendors.find? (fun v => v.id == id) with
    | none => simp
    | some v =>
        cases hdir : Mongo.getVendorUserDirect st.users v with
        | some u => simp [orElseO, hdir]
        | none =>
            cases husers : st.users with
            | nil =>
                rw [husers] at hdir
                simp [orElseO, hdir, Mongo.mostRecentUserQuery]
            | cons u0 t =>
                rw [husers] at hdir
                simp [orElseO, hdir, Mongo.mostRecentUserQuery]

/-- Witness for C2's amended theorem, at the concrete orphan store: the two
cascades agree on Alice's well-linked vendor, the membership
characterisation holds for the orphan vendor, and the `getVendor`
not-found characterisation holds at id 1. -/
theorem c2_amended_witness :
    Mongo.getVendorUserDirect [Ex.u1] Ex.vAlice = Mongo.listUserDirect [Ex.u1] Ex.vAlice ∧
    ((Ex.vOrphan, Ex.u1) ∈ Mongo.getAllVendors Ex.stOrphan ↔
      Ex.vOrphan ∈ Ex.stOrphan.vendors ∧
        Mongo.listUserDirect Ex.stOrphan.users Ex.vOrphan = some Ex.u1) ∧
    (Mongo.getVendor Ex.stOrphan 1 = none ↔
      (Ex.stOrphan.vendors.find? (fun v => v.id == 1) = none ∨
        (∃ v, Ex.stOrphan.vendors.find? (fun v' => v'.id == 1) = some v ∧
          Mongo.getVendorUserDirect Ex.stOrphan.users v = none ∧
          Ex.stOrphan.users = []))) :=
  ⟨c2_amended_shared_direct_cascade_fallback_only_in_getVendor.1 [Ex.u1] Ex.vAlice (by decide),
    c2_amended_shared_direct_cascade_fallback_only_in_getVendor.2.1 Ex.stOrphan Ex.vOrphan Ex.u1,
    c2_amended_shared_direct_cascade_fallback_only_in_getVendor.2.2 Ex.stOrphan 1⟩

/-- **C3** (amended): for a reference no direct strategy resolves, user
resolution falls back to *some* stored user — under the sort on the absent
`createdAt` field this is the store's natural first user, not necessarily
the most-recently-created one — and resolution fails only when zero users
exist: the cascade succeeds exactly when the user collection is non-empty,
always answers with a stored user, `getVendor` on an existing vendor is
not-found exactly when the user collection is empty, and `createVendor`
raises exactly when the user collection is empty. -/
theorem c3_amended_resolution_fails_only_on_empty_users :
    (∀ (users : List Mongo.MUser) (ref : Ref),
      (Mongo.createVendorResolveUser users ref).isSome = true ↔ users ≠ []) ∧
    (∀ (users : List Mongo.MUser) (ref : Ref) (u : Mongo.MUser),
      Mongo.createVendorResolveUser users ref = some u → u ∈ users) ∧
    (∀ (st : Mongo.State) (id : Int) (v : Mongo.MVendor),
      st.vendors.find? (fun v' => v'.id == id) = some v →
      ((Mongo.getVendor st id).isSome = true ↔ st.users ≠ [])) ∧
    (∀ (st : Mongo.State) (iv : Mongo.InsertVendorM),
      exceptIsOk (Mongo.createVendor st iv) = true ↔ st.users ≠ []) := by
  have key : ∀ (users : List Mongo.MUser) (ref : Ref),
      (Mongo.createVendorResolveUser users ref).isSome = true ↔ users ≠ [] := by
    intro users ref
    constructor
    · intro h hnil
      subst hnil
      rw [createVendorResolveUser_nil] at h
      simp at h
    · intro h
      cases users with
      | nil => exact absurd rfl h
      | cons u0 t =>
          unfold Mongo.createVendorResolveUser
          simp [Mongo.mostRecentUserQuery, orElseO_isSome_right]
  refine ⟨key, ?_, ?_, ?_⟩
  · intro users ref u h
    unfold Mongo.createVendorResolveUser at h
    rcases orElseO_eq_some_iff.1 h with h3 | ⟨_, hfb⟩
    · rcases orElseO_eq_some_iff.1 h3 with h2 | ⟨_, he3⟩
      · rcases orElseO_eq_some_iff.1 h2 with h1 | ⟨_, he2⟩
        · cases ref with
          | num n =>
              have h1' : (none : Option Mongo.MUser) = some u := h1
              cases h1'
          | oid s =>
              have h1' : (none : Option Mongo.MUser) = some u := h1
              cases h1'
          | str s =>
              have h1' :
                  (if (s.length == 24) = true then Mongo.findById users (Ref.str s)
                    else none) = some u := h1
              by_cases h24 : (s.length == 24) = true
              · rw [if_pos h24] at h1'
                exact mem_of_findById h1'
              · rw [if_neg h24] at h1'
                cases h1' 
        · cases htn : Ref.toNumber ref with
          | none => rw [htn] at he2; cases he2
          | some n =>
              rw [htn] at he2
              exact List.mem_of_find?_eq_some he2
      · cases ref with
        | num n =>
            have he3' : (none : Option Mongo.MUser) = some u := he3
            cases he3'
        | oid s =>
            have he3' : (none : Option Mongo.MUser) = some u := he3
            cases he3'
        | str s =>
            have he3' : users.find? (fun u' => u'.id == JsVal.str s) = some u := he3
            exact List.mem_of_find?_eq_some he3' 
    · cases users with
      | nil => cases hfb
      | cons u0 t =>
          have : u = u0 := by
            simpa [Mongo.mostRecentUserQuery] using hfb.symm
          rw [this]
          exact List.mem_cons_self u0 t
  · intro st id v hfind
    unfold Mongo.getVendor
    rw [hfind]
    cases husers : st.users with
    | nil => simp [getVendorUserDirect_nil, Mongo.mostRecentUserQuery, orElseO]
    | cons u0 t => simp [Mongo.mostRecentUserQuery, orElseO_isSome_right]
  · intro st iv
    unfold Mongo.createVendor
    cases hres : Mongo.createVendorResolveUser st.users iv.userId with
    | none =>
        simp [exceptIsOk]
        have := (key st.users iv.userId)
        rw [hres] at this
        simp at this
        exact this
    | some u =>
        simp [exceptIsOk]
        exact (key st.users iv.userId).1 (by rw [hres]; rfl)

/-- Witness for C3's amended theorem at concrete stores: the two-user store
with an unresolvable reference, the orphan store's vendor 1, and a
`createVendor` against the two-user store. -/
theorem c3_amended_witness :
    ((Mongo.createVendorResolveUser [Ex.u1, Ex.u2] (.num 999)).isSome = true ↔
      [Ex.u1, Ex.u2] ≠ []) ∧
    Ex.u1 ∈ [Ex.u1, Ex.u2] ∧
    ((Mongo.getVendor Ex.stOrphan 1).isSome = true ↔ Ex.stOrphan.users ≠ []) ∧
    (exceptIsOk (Mongo.createVendor Ex.stTwoUsers
      ⟨.num 999, "B Shop", "General", "Everything in one place"⟩) = true ↔
      Ex.stTwoUsers.users ≠ []) :=
  ⟨c3_amended_resolution_fails_only_on_empty_users.1 [Ex.u1, Ex.u2] (.num 999),
    c3_amended_resolution_fails_only_on_empty_users.2.1 [Ex.u1, Ex.u2] (.num 999) Ex.u1 rfl,
    c3_amended_resolution_fails_only_on_empty_users.2.2.1 Ex.stOrphan 1 Ex.vOrphan rfl,
    c3_amended_resolution_fails_only_on_empty_users.2.2.2 Ex.stTwoUsers
      ⟨.num 999, "B Shop", "General", "Everything in one place"⟩⟩

/-- The greatest element exists exactly on non-empty lists. -/
theorem maxIntList_eq_none_iff (l : List Int) : maxIntList l = none ↔ l = [] := by
  cases l with
  | nil => simp [maxIntList]
  | cons x t =>
      unfold maxIntList
      cases maxIntList t <;> simp

/-- Characterisation of the greatest element: it is a member and an upper
bound. -/
theorem maxIntList_spec (l : List Int) (K : Int) :
    maxIntList l = some K ↔ K ∈ l ∧ ∀ x ∈ l, x ≤ K := by
  induction l generalizing K with
  | nil => simp [maxIntList]
  | cons x t ih =>
      unfold maxIntList
      cases hmx : maxIntList t with
      | none =>
          have ht : t = [] := (maxIntList_eq_none_iff t).1 hmx
          subst ht
          constructor
          · intro h
            injection h with h
            constructor
            · rw [← h]
              exact List.mem_singleton.2 rfl
            · intro y hy
              rcases List.mem_singleton.1 hy with rfl
              rw [← h]
          · rintro ⟨hK, hbd⟩
            rcases List.mem_singleton.1 hK with rfl
            rfl
      | some m =>
          have hmem := (ih m).1 hmx
          constructor
          · intro h
            injection h with h
            constructor
            · rw [← h]
              rcases max_cases x m with ⟨he, _⟩ | ⟨he, _⟩
              · rw [he]
                exact List.mem_cons_self x t
              · rw [he]
                exact List.mem_cons_of_mem _ hmem.1
            · intro y hy
              rw [← h]
              rcases List.mem_cons.1 hy with rfl | hy'
              · exact le_max_left _ _
              · exact le_trans (hmem.2 y hy') (le_max_right _ _)
          · rintro ⟨hK, hbd⟩
            have hmk : max x m = K := by
              apply le_antisymm
              · exact max_le (hbd x (List.mem_cons_self x t))
                  (hbd m (List.mem_cons_of_mem _ hmem.1))
              · rcases List.mem_cons.1 hK with rfl | hK'
                · exact le_max_left _ _
                · exact le_trans (hmem.2 K hK') (le_max_right _ _)
            exact congrArg some hmk

/-- The greatest element does not depend on the order of the list. -/
theorem maxIntList_perm {l l' : List Int} (h : l.Perm l') :
    maxIntList l = maxIntList l' := by
  cases hmx : maxIntList l with
  | none =>
      have hl : l = [] := (maxIntList_eq_none_iff l).1 hmx
      subst hl
      have hl' : l' = [] := h.symm.eq_nil
      rw [hl']
      rfl
  | some K =>
      have hs := (maxIntList_spec l K).1 hmx
      exact ((maxIntList_spec l' K).2
        ⟨h.mem_iff.1 hs.1, fun x hx => hs.2 x (h.mem_iff.2 hx)⟩).symm

/-- On a collection whose ids are all numbers, the descending id sort
returns a record carrying the greatest id. -/
theorem lastByIdDescJs_allnum (recs : List RawRec)
    (h : ∀ r ∈ recs, ∃ n : Int, r.id = .num n) :
    (Mongo.lastByIdDescJs (fun r : RawRec => r.id) recs).map RawRec.id =
      (maxIntList (numIds recs)).map JsVal.num := by
  induction recs with
  | nil => rfl
  | cons r t ih =>
      obtain ⟨a, ha⟩ := h r (List.mem_cons_self r t)
      have ht : ∀ r' ∈ t, ∃ n : Int, r'.id = .num n :=
        fun r' hr' => h r' (List.mem_cons_of_mem r hr')
      have ih' := ih ht
      unfold Mongo.lastByIdDescJs
      have hnum : numIds (r :: t) = a :: numIds t := by simp [numIds, ha]
      rw [hnum]
      cases hlast : Mongo.lastByIdDescJs (fun r : RawRec => r.id) t with
      | none =>
          rw [hlast] at ih'
          have hmx : maxIntList (numIds t) = none := by
            cases hmx : maxIntList (numIds t) with
            | none => rfl
            | some m => rw [hmx] at ih'; simp at ih'
          simp [maxIntList, hmx, ha]
      | some b =>
          rw [hlast] at ih'
          cases hmx : maxIntList (numIds t) with
          | none => rw [hmx] at ih'; simp at ih'
          | some m =>
              rw [hmx] at ih'
              simp only [Option.map_some'] at ih'
              injection ih' with hb
              by_cases hlt : a < m
              · simp [maxIntList, hmx, ha, hb, JsVal.bsonLt, hlt,
                  max_eq_right (le_of_lt hlt)]
              · simp [maxIntList, hmx, ha, hb, JsVal.bsonLt, hlt,
                  max_eq_left (not_lt.1 hlt)]

/-- **C4** (amended): all five allocators return 1 on the empty collection,
and (max id) + 1 on a collection of valid numeric ids with maximum K,
independent of insertion order; but the tolerance for a corrupted maximum
exists only in `createVendor`, whose `isNaN` guard falls back to 1 — the
other four apply JavaScript `+ 1` to the corrupted value (see the
counterexample for what they produce instead). -/
theorem c4_amended_allocators :
    (createUserNextId [] = .num 1 ∧ createVendorNextId [] = .num 1 ∧
      createServiceNextId [] = .num 1 ∧ createBookingNextId [] = .num 1 ∧
      createReviewNextId [] = .num 1) ∧
    (∀ (recs : List RawRec) (K : Int),
      (∀ r ∈ recs, ∃ n : Int, r.id = .num n) →
      maxIntList (numIds recs) = some K →
      createUserNextId recs = .num (K + 1) ∧ createVendorNextId recs = .num (K + 1) ∧
        createServiceNextId recs = .num (K + 1) ∧ createBookingNextId recs = .num (K + 1) ∧
        createReviewNextId recs = .num (K + 1)) ∧
    (∀ (recs recs' : List RawRec), recs.Perm recs' →
      (∀ r ∈ recs, ∃ n : Int, r.id = .num n) →
      createUserNextId recs = createUserNextId recs' ∧
        createVendorNextId recs = createVendorNextId recs') ∧
    (∀ (recs : List RawRec) (r : RawRec),
      Mongo.lastByIdDescJs (fun r' : RawRec => r'.id) recs = some r →
      jsToNumber r.id = none →
      createVendorNextId recs = .num 1) := by
  have key : ∀ (recs : List RawRec) (K : Int),
      (∀ r ∈ recs, ∃ n : Int, r.id = .num n) →
      maxIntList (numIds recs) = some K →
      ∃ r, Mongo.lastByIdDescJs (fun r' : RawRec => r'.id) recs = some r ∧
        r.id = .num K := by
    intro recs K hall hmax
    have hmap := lastByIdDescJs_allnum recs hall
    rw [hmax] at hmap
    cases hlast : Mongo.lastByIdDescJs (fun r' : RawRec => r'.id) recs with
    | none => rw [hlast] at hmap; simp at hmap
    | some r =>
        rw [hlast] at hmap
        simp only [Option.map_some'] at hmap
        injection hmap with hid
        exact ⟨r, rfl, hid⟩
  have keyAll : ∀ (recs : List RawRec) (K : Int),
      (∀ r ∈ recs, ∃ n : Int, r.id = .num n) →
      maxIntList (numIds recs) = some K →
      createUserNextId recs = .num (K + 1) ∧ createVendorNextId recs = .num (K + 1) ∧
        createServiceNextId recs = .num (K + 1) ∧ createBookingNextId recs = .num (K + 1) ∧
        createReviewNextId recs = .num (K + 1) := by
    intro recs K hall hmax
    obtain ⟨r, hlast, hid⟩ := key recs K hall hmax
    refine ⟨?_, ?_, ?_, ?_, ?_⟩ <;>
      simp [createUserNextId, createVendorNextId, createServiceNextId,
        createBookingNextId, createReviewNextId, hlast, hid, jsAdd1, jsToNumber]
  refine ⟨⟨rfl, rfl, rfl, rfl, rfl⟩, keyAll, ?_, ?_⟩
  · intro recs recs' hperm hall
    cases recs with
    | nil =>
        have h' : recs' = [] := hperm.symm.eq_nil
        subst h'
        exact ⟨rfl, rfl⟩
    | cons r t =>
        have hall' : ∀ r' ∈ recs', ∃ n : Int, r'.id = .num n :=
          fun r' hr' => hall r' (hperm.mem_iff.2 hr')
        cases hmx : maxIntList (numIds (r :: t)) with
        | none =>
            rw [maxIntList_eq_none_iff] at hmx
            obtain ⟨a, ha⟩ := hall r (List.mem_cons_self r t)
            simp [numIds, ha] at hmx
        | some K =>
            have hmx' : maxIntList (numIds recs') = some K := by
              unfold numIds
              unfold numIds at hmx
              rw [← maxIntList_perm (hperm.filterMap _)]
              exact hmx
            have h1 := keyAll (r :: t) K hall hmx
            have h2 := keyAll recs' K hall' hmx'
            rw [h1.1, h1.2.1, h2.1, h2.2.1]
            exact ⟨rfl, rfl⟩
  · intro recs r hlast hnan
    simp [createVendorNextId, hlast, hnan]

/-- Witness for C4's amended theorem: a two-record collection with ids 3 and
7 (in both orders), and the corrupted single-record collection for the
vendor guard. -/
theorem c4_amended_allocators_witness :
    (createUserNextId [⟨.num 3⟩, ⟨.num 7⟩] = .num 8 ∧
      createVendorNextId [⟨.num 3⟩, ⟨.num 7⟩] = .num 8 ∧
      createServiceNextId [⟨.num 3⟩, ⟨.num 7⟩] = .num 8 ∧
      createBookingNextId [⟨.num 3⟩, ⟨.num 7⟩] = .num 8 ∧
      createReviewNextId [⟨.num 3⟩, ⟨.num 7⟩] = .num 8) ∧
    (createUserNextId [⟨.num 3⟩, ⟨.num 7⟩] = createUserNextId [⟨.num 7⟩, ⟨.num 3⟩] ∧
      createVendorNextId [⟨.num 3⟩, ⟨.num 7⟩] = createVendorNextId [⟨.num 7⟩, ⟨.num 3⟩]) ∧
    createVendorNextId [⟨.str "abc"⟩] = .num 1 := by
  have hall : ∀ r ∈ [RawRec.mk (.num 3), RawRec.mk (.num 7)],
      ∃ n : Int, r.id = .num n := by
    intro r hr
    rcases List.mem_cons.1 hr with rfl | hr'
    · exact ⟨3, rfl⟩
    rcases List.mem_cons.1 hr' with rfl | hr''
    · exact ⟨7, rfl⟩
    cases hr''
  refine ⟨c4_amended_allocators.2.1 [⟨.num 3⟩, ⟨.num 7⟩] 7 hall (by decide),
    c4_amended_allocators.2.2.1 [⟨.num 3⟩, ⟨.num 7⟩] [⟨.num 7⟩, ⟨.num 3⟩] (by decide) hall,
    c4_amended_allocators.2.2.2 [⟨.str "abc"⟩] ⟨.str "abc"⟩ rfl (by decide)⟩

/-- A keyed search over the translated values of a map is the translated
map lookup, whenever the search predicate is the key test on each entry. -/
theorem find?_translated {B C : Type} (m : List (Nat × B)) (tr : B → C) (p : C → Bool) (k : Nat)
    (h : ∀ q ∈ m, p (tr q.2) = (q.1 == k)) :
    ((mapValues m).map tr).find? p = (mapGet m k).map tr := by
  induction m with
  | nil => rfl
  | cons q t ih =>
      have hq := h q (List.mem_cons_self q t)
      have ht : ∀ a ∈ t, p (tr a.2) = (a.1 == k) :=
        fun a ha => h a (List.mem_cons_of_mem q ha)
      cases hk : (q.1 == k) with
      | true =>
          rw [hk] at hq
          simp [mapValues, mapGet, hq, hk]
      | false =>
          rw [hk] at hq
          have hq' : ¬ p (tr q.2) = true := by rw [hq]; exact Bool.false_ne_true
          have hk' : ¬ (q.1 == k) = true := by rw [hk]; exact Bool.false_ne_true
          have hstep : List.find? (fun a : Nat × B => a.1 == k) (q :: t) =
              List.find? (fun a : Nat × B => a.1 == k) t :=
            List.find?_cons_of_neg t hk'
          simp only [mapValues, mapGet, List.map_cons, List.find?_cons_of_neg _ hq', hstep]
          simpa [mapValues, mapGet] using ih ht

/-- `Map.set` with an unused key appends. -/
theorem mapSet_fresh {B : Type} (m : List (Nat × B)) (k : Nat) (v : B)
    (h : ∀ p ∈ m, p.1 ≠ k) : mapSet m k v = m ++ [(k, v)] := by
  unfold mapSet
  rw [if_neg]
  intro hany
  rcases List.any_eq_true.1 hany with ⟨q, hq, hqk⟩
  exact h q hq (by simpa using hqk)

/-- The `Map.set` rewrite pass is the identity off the key. -/
theorem map_if_unchanged {B : Type} (t : List (Nat × B)) (k : Nat) (v : B)
    (h : ∀ q ∈ t, q.1 ≠ k) :
    t.map (fun q => if q.1 == k then (k, v) else q) = t := by
  induction t with
  | nil => rfl
  | cons q u ih =>
      have hq : (q.1 == k) = false := by
        simpa using h q (List.mem_cons_self q u)
      simp only [List.map_cons, hq, Bool.false_eq_true, if_false]
      rw [ih (fun a ha => h a (List.mem_cons_of_mem q ha))]

/-- On a well-formed vendor map, `findOneAndUpdate` over the translated
collection corresponds to `Map.set` of the updated record. -/
theorem updateFirst_mapSet_corr (m : List (Nat × Mem.Vendor)) (k : Nat)
    (g : Mongo.MVendor → Mongo.MVendor) (w0 v' : Mem.Vendor)
    (hkeys : ∀ p ∈ m, (p.2 : Mem.Vendor).id = p.1)
    (hnodup : (m.map Prod.fst).Nodup)
    (hfound : mapGet m k = some w0)
    (hg : g (vendorToMongo w0) = vendorToMongo v') :
    Mongo.updateFirst (fun mv => mv.id == (k : Int)) g ((mapValues m).map vendorToMongo) =
      (mapValues (mapSet m k v')).map vendorToMongo := by
  induction m with
  | nil => cases hfound
  | cons q t ih =>
      have hkq := hkeys q (List.mem_cons_self q t)
      have hkt : ∀ p ∈ t, (p.2 : Mem.Vendor).id = p.1 :=
        fun p hp => hkeys p (List.mem_cons_of_mem q hp)
      have hnt : (t.map Prod.fst).Nodup := (List.nodup_cons.1 hnodup).2
      cases hk : (q.1 == k) with
      | true =>
          have hqk : q.1 = k := by simpa using hk
          have hw : w0 = q.2 := by
            unfold mapGet at hfound
            simp [hk] at hfound
            exact hfound.symm
          have htk : ∀ a ∈ t, a.1 ≠ k := by
            intro a ha hak
            have hni : q.1 ∉ t.map Prod.fst := (List.nodup_cons.1 hnodup).1
            exact hni (by
              rw [hqk, ← hak]
              exact List.mem_map_of_mem Prod.fst ha)
          have hpred : ((vendorToMongo q.2).id == (k : Int)) = true := by
            simp [vendorToMongo, hkq, hqk]
          have hany : (q :: t).any (fun p => p.1 == k) = true :=
            List.any_eq_true.2 ⟨q, List.mem_cons_self q t, by simpa using hk⟩
          unfold mapSet
          rw [if_pos hany]
          simp only [mapValues, List.map_cons, Mongo.updateFirst, hpred, if_pos, hk]
          rw [hw] at hg
          rw [hg]
          rw [map_if_unchanged t k v' htk]
      | false =>
          have hqk : q.1 ≠ k := by simpa using hk
          have hk' : ¬ (q.1 == k) = true := by rw [hk]; exact Bool.false_ne_true
          have hfound' : mapGet t k = some w0 := by
            have hstep : List.find? (fun a : Nat × Mem.Vendor => a.1 == k) (q :: t) =
                List.find? (fun a : Nat × Mem.Vendor => a.1 == k) t :=
              List.find?_cons_of_neg t hk'
            unfold mapGet at hfound ⊢
            rwa [hstep] at hfound
          have hpred : ¬ ((vendorToMongo q.2).id == (k : Int)) = true := by
            simp [vendorToMongo, hkq]
            intro hc
            exact hqk (by exact_mod_cast hc)
          have hany : t.any (fun p => p.1 == k) = true := by
            unfold mapGet at hfound'
            cases hfind : t.find? (fun p => p.1 == k) with
            | none => rw [hfind] at hfound'; cases hfound'
            | some a =>
                have hpa := List.find?_some hfind
                exact List.any_eq_true.2 ⟨a, List.mem_of_find?_eq_some hfind, hpa⟩
          have ihr := ih hkt hnt hfound'
          have hanyc : (q :: t).any (fun p => p.1 == k) = true := by
            simp [List.any_cons, hany]
          unfold mapSet at ihr ⊢
          rw [if_pos hanyc]
          rw [if_pos hany] at ihr
          simp only [mapValues, List.map_cons, hk, Bool.false_eq_true, if_false]
          rw [Mongo.updateFirst]
          rw [if_neg hpred]
          simp only [mapValues] at ihr
          rw [ihr]

/-- The review-user join of the document store and of the in-memory store
produce the same rating list, for review collections holding the same
user/vendor/rating columns over corresponding user stores. -/
theorem join_ratings_eq (oids : Nat → String) (users : List (Nat × Mem.User))
    (hkeys : ∀ p ∈ users, (p.2 : Mem.User).id = p.1) (vid : Nat) :
    ∀ (mrs : List Mongo.MReview) (rs : List Mem.Review),
    mrs.map (fun r => (r.userId, r.vendorId, r.rating)) =
      rs.map (fun r => (JsVal.num (r.userId : Int), (r.vendorId : Int), r.rating)) →
    ((mrs.filter (fun r => r.vendorId == (vid : Int))).filterMap
        (fun r => (((mapValues users).map (userToMongo oids)).find?
          (fun u => u.id == r.userId)).map (fun u => (r, u)))).map (fun p => p.1.rating) =
      ((rs.filter (fun r => r.vendorId == vid)).filterMap
        (fun r => (mapGet users r.userId).map (fun u => (r, u)))).map (fun p => p.1.rating) := by
  intro mrs
  induction mrs with
  | nil =>
      intro rs hcorr
      cases rs with
      | nil => rfl
      | cons r rt => simp at hcorr
  | cons rm mt ih =>
      intro rs hcorr
      cases rs with
      | nil => simp at hcorr
      | cons r rt =>
          simp only [List.map_cons, List.cons.injEq] at hcorr
          obtain ⟨hhead, htail⟩ := hcorr
          injection hhead with hU hrest
          injection hrest with hV hR
          have hfilter : (rm.vendorId == (vid : Int)) = (r.vendorId == vid) := by
            rw [hV, Bool.eq_iff_iff]
            simp [Nat.cast_inj]
          cases hf : (r.vendorId == vid) with
          | false =>
              rw [hf] at hfilter
              simp only [List.filter_cons, hfilter, hf, Bool.false_eq_true, if_false]
              exact ih rt htail
          | true =>
              rw [hf] at hfilter
              have hfind := find?_translated users (userToMongo oids)
                (fun u => u.id == rm.userId) r.userId (by
                  intro q hq
                  rw [hU, Bool.eq_iff_iff]
                  simp [userToMongo, Nat.cast_inj, hkeys q hq])
              simp only [List.filter_cons, hfilter, hf, if_true, List.filterMap_cons]
              cases hget : mapGet users r.userId with
              | none =>
                  rw [hget] at hfind
                  simp only [Option.map_none'] at hfind
                  rw [hfind]
                  simp only [Option.map_none']
                  exact ih rt htail
              | some u =>
                  rw [hget] at hfind
                  simp only [Option.map_some'] at hfind
                  rw [hfind]
                  simp only [Option.map_some', List.map_cons]
                  rw [hR, ih rt htail]

/-- On a well-formed in-memory state, `MongoDBStorage.createReview` run on
the translated store succeeds and leaves the vendor collection equal to the
translation of what `MemStorage.createReview` leaves: the two
implementations persist the same vendor aggregates. -/
theorem createReview_vendors_translated (oids : Nat → String) (s : Mem.State) (ir : Mem.InsertReview)
    (hwf : Mem.WF s) :
    ∃ (st' : Mongo.State) (r' : Mongo.MReview),
      Mongo.createReview (memToMongo oids s)
          ⟨.num (ir.userId : Int), .num (ir.vendorId : Int), ir.rating, ir.comment⟩ =
        .ok (st', r') ∧
      st'.vendors =
        (mapValues ((Mem.createReview s ir).1).vendors).map vendorToMongo := by
  have hfresh : ∀ p ∈ s.reviews, p.1 ≠ s.reviewIdCounter :=
    fun p hp => Nat.ne_of_lt (hwf.reviewFresh p hp)
  have hset : mapSet s.reviews s.reviewIdCounter
      ⟨s.reviewIdCounter, ir.userId, ir.vendorId, ir.rating, ir.comment, s.now⟩ =
      s.reviews ++ [(s.reviewIdCounter,
        ⟨s.reviewIdCounter, ir.userId, ir.vendorId, ir.rating, ir.comment, s.now⟩)] :=
    mapSet_fresh _ _ _ hfresh
  have hvfind : ((mapValues s.vendors).map vendorToMongo).find?
      (fun mv => mv.id == ((ir.vendorId : Nat) : Int)) =
      (mapGet s.vendors ir.vendorId).map vendorToMongo :=
    find?_translated s.vendors vendorToMongo _ ir.vendorId (by
      intro q hq
      rw [Bool.eq_iff_iff]
      simp [vendorToMongo, Nat.cast_inj, hwf.vendorKeys q hq])
  unfold Mongo.createReview Mem.createReview memToMongo
  simp only [Ref.toNumber, hset, hvfind]
  cases hv : mapGet s.vendors ir.vendorId with
  | none =>
      simp only [Option.map_none']
      refine ⟨_, _, rfl, ?_⟩
      simp [hset]
  | some v0 =>
      simp only [Option.map_some']
      refine ⟨_, _, rfl, ?_⟩
      simp only [hset]
      have hrat := join_ratings_eq oids s.users hwf.userKeys ir.vendorId
        ((mapValues s.reviews).map reviewToMongo ++
          [⟨match Mongo.lastByIdDesc (fun r : Mongo.MReview => r.id)
              ((mapValues s.reviews).map reviewToMongo) with
            | none => (1 : Int)
            | some lastReview => lastReview.id + 1,
            JsVal.num (ir.userId : Int), (ir.vendorId : Int), ir.rating, ir.comment, s.now⟩])
        (mapValues (s.reviews ++ [(s.reviewIdCounter,
          ⟨s.reviewIdCounter, ir.userId, ir.vendorId, ir.rating, ir.comment, s.now⟩)]))
        (by
          simp only [mapValues, List.map_append, List.map_map, List.map_cons, List.map_nil]
          rfl)
      have hlen := congrArg List.length hrat
      simp only [List.length_map] at hlen
      apply updateFirst_mapSet_corr s.vendors ir.vendorId _ v0 _
        hwf.vendorKeys hwf.vendorNodup hv
      simp only [vendorToMongo]
      unfold Mongo.getReviewsByVendorId Mem.getReviewsByVendorId
      rw [hrat, hlen]

/-- **C5** (amended): the implementations are not observationally
equivalent on resolution — `MemStorage.createVendor` performs no user
resolution (the stored reference is the submitted one, and creation
succeeds even with zero users, where the Mongo implementation raises), and
`MemStorage.getVendor` is a single exact `users.get(vendor.userId)` lookup
(no cascade, no fallback) — but the aggregate-recomputation semantics of
`createReview` do agree: on a well-formed store, the document-store
implementation and the in-memory implementation persist identical vendor
collections (same rating, same reviewCount, double count included). -/
theorem c5_amended_aggregates_agree_resolution_does_not :
    (∀ (s : Mem.State) (iv : Mem.InsertVendor),
      ((Mem.createVendor s iv).2).userId = iv.userId) ∧
    (∀ (s : Mem.State) (id : Nat),
      Mem.getVendor s id = (mapGet s.vendors id).bind
        (fun v => (mapGet s.users v.userId).map (fun u => (v, u)))) ∧
    (∀ (oids : Nat → String) (s : Mem.State) (ir : Mem.InsertReview),
      Mem.WF s →
      ∃ (st' : Mongo.State) (r' : Mongo.MReview),
        Mongo.createReview (memToMongo oids s)
            ⟨.num (ir.userId : Int), .num (ir.vendorId : Int), ir.rating, ir.comment⟩ =
          .ok (st', r') ∧
        st'.vendors =
          (mapValues ((Mem.createReview s ir).1).vendors).map vendorToMongo) := by
  refine ⟨fun s iv => rfl, ?_, createReview_vendors_translated⟩
  intro s id
  unfold Mem.getVendor
  cases hv : mapGet s.vendors id with
  | none => rfl
  | some v =>
      simp only [Option.some_bind]
      cases hu : mapGet s.users v.userId with
      | none => simp [hu]
      | some u => simp [hu]

/-- Witness for C5's amended theorem at the concrete review store. -/
theorem c5_amended_witness :
    (Mem.createVendor Ex.memReview0 ⟨999, "B Shop", "General", "All sorts of goods"⟩).2.userId = 999 ∧
    Mem.getVendor Ex.memOrphan 1 = (mapGet Ex.memOrphan.vendors 1).bind
      (fun v => (mapGet Ex.memOrphan.users v.userId).map (fun u => (v, u))) ∧
    ∃ (st' : Mongo.State) (r' : Mongo.MReview),
      Mongo.createReview (memToMongo (fun _ => Ex.oidA) Ex.memReview0)
          ⟨.num ((1 : Nat) : Int), .num ((1 : Nat) : Int), 5, none⟩ =
        .ok (st', r') ∧
      st'.vendors =
        (mapValues ((Mem.createReview Ex.memReview0 ⟨1, 1, 5, none⟩).1).vendors).map
          vendorToMongo :=
  ⟨c5_amended_aggregates_agree_resolution_does_not.1 Ex.memReview0
      ⟨999, "B Shop", "General", "All sorts of goods"⟩,
    c5_amended_aggregates_agree_resolution_does_not.2.1 Ex.memOrphan 1,
    c5_amended_aggregates_agree_resolution_does_not.2.2 (fun _ => Ex.oidA) Ex.memReview0
      ⟨1, 1, 5, none⟩
      ⟨by decide, by decide, by decide, by decide, by decide⟩⟩

/-- **C6**: an authenticated vendor-role user with no vendor profile is not
rejected by service creation: the handler auto-provisions a default vendor
profile — businessName derived from the display name, category
"General Services", default description, linked to the resolved user's
native reference — and persists the requested service with `vendorId`
equal to the new vendor's id.  (The hypotheses: the requester carries their
numeric user id, that user exists, and no vendor profile resolves for it.) -/
theorem c6_service_creation_auto_provisions_vendor_profile :
    ∀ (st : Mongo.State) (au : Routes.AuthUser) (body : Routes.ServiceBody)
      (k : Int) (u : Mongo.MUser),
      au.role = "vendor" → au.id = .num k → au.name ≠ "" →
      st.users.find? (fun u' => u'.id == JsVal.num k) = some u →
      Mongo.getVendorByUserId st au.id = none →
      ∃ (st2 : Mongo.State) (sv : Mongo.MService) (V : Mongo.MVendor),
        Routes.postApiServices st au body = (st2, .ok sv) ∧
        V ∈ st2.vendors ∧
        V.userId = .oid u.oid ∧
        V.businessName = au.name ++ "\'s Business" ∧
        sv.vendorId = V.id := by
  intro st au body k u hrole hid hname hfindu hnov
  have hbne : (au.name != "") = true := by rwa [bne_iff_ne]
  unfold Routes.postApiServices
  rw [hnov, hrole]
  simp only [beq_self_eq_true, if_true, hbne]
  unfold Mongo.createVendor Mongo.createVendorResolveUser
  rw [hid]
  simp only [Ref.toNumber, hfindu, orElseO, Mongo.mostRecentUserQuery]
  unfold Mongo.createService
  simp only [Ref.toNumber]
  refine ⟨_, _,
    ⟨match Mongo.lastByIdDesc (fun v : Mongo.MVendor => v.id) st.vendors with
      | none => 1
      | some lastVendor => lastVendor.id + 1,
      .oid u.oid, au.name ++ "\'s Business", "General Services",
      "A new vendor on VendorHive", 0, 0⟩,
    rfl, ?_, rfl, rfl, rfl⟩
  exact List.mem_append.2 (Or.inr (List.mem_singleton.2 rfl))

/-- Witness for C6: Alice, a vendor-role user with no vendor profile,
creates a service in the concrete store. -/
theorem c6_witness :
    ∃ (st2 : Mongo.State) (sv : Mongo.MService) (V : Mongo.MVendor),
      Routes.postApiServices Ex.stC6 Ex.auAlice Ex.bodyLawn = (st2, .ok sv) ∧
      V ∈ st2.vendors ∧
      V.userId = .oid Ex.u1.oid ∧
      V.businessName = Ex.auAlice.name ++ "\'s Business" ∧
      sv.vendorId = V.id :=
  c6_service_creation_auto_provisions_vendor_profile Ex.stC6 Ex.auAlice Ex.bodyLawn 1 Ex.u1
    rfl rfl (by decide) rfl rfl

/-- The kept elements of a `filterMap` whose function only ever returns its
argument in the first component form a sublist of the input. -/
theorem filterMap_fst_sublist {A B : Type} (l : List A) (f : A → Option (A × B))
    (hf : ∀ a p, f a = some p → p.1 = a) :
    List.Sublist ((l.filterMap f).map (fun p => p.1)) l := by
  induction l with
  | nil => simp
  | cons a t ih =>
      cases hfa : f a with
      | none =>
          rw [List.filterMap_cons_none hfa]
          exact ih.cons a
      | some p =>
          rw [List.filterMap_cons_some hfa]
          simp only [List.map_cons]
          rw [hf a p hfa]
          exact ih.cons₂ a

/-- Membership characterisation of `MemStorage.searchVendors`: a joined
pair is returned exactly when the vendor is stored, its user resolves by
the exact map lookup, and a field of the vendor or the user's name matches
the query case-insensitively. -/
theorem mem_searchVendors_iff (s : Mem.State) (q : String) (v : Mem.Vendor) (u : Mem.User) :
    (v, u) ∈ Mem.searchVendors s q ↔
      (v ∈ mapValues s.vendors ∧ mapGet s.users v.userId = some u ∧
        (lcContains v.businessName q || lcContains v.category q ||
          lcContains v.description q || lcContains u.name q) = true) := by
  unfold Mem.searchVendors
  rw [List.mem_filterMap]
  constructor
  · rintro ⟨a, ha, hfa⟩
    cases hg : mapGet s.users a.userId with
    | none =>
        rw [hg] at hfa
        cases hfa
    | some u' =>
        rw [hg] at hfa
        have hfa' : (if (lcContains a.businessName q || lcContains a.category q ||
              lcContains a.description q || lcContains u'.name q) = true then
            some (a, u') else none) = some (v, u) := hfa
        by_cases hc : (lcContains a.businessName q || lcContains a.category q ||
            lcContains a.description q || lcContains u'.name q) = true
        · rw [if_pos hc] at hfa'
          injection hfa' with hp
          injection hp with h1 h2
          subst h1; subst h2
          exact ⟨ha, hg, hc⟩
        · rw [if_neg hc] at hfa'
          cases hfa'
  · rintro ⟨hv, hu, hc⟩
    refine ⟨v, hv, ?_⟩
    rw [hu]
    show (if (lcContains v.businessName q || lcContains v.category q ||
        lcContains v.description q || lcContains u.name q) = true then
      some (v, u) else none) = some (v, u)
    rw [if_pos hc]

/-- The user-name pass of `MongoDBStorage.searchVendors` preserves
distinctness of the result vendor ids: each appended pair is guarded by the
`some(r => r.id === vendor.id)` duplicate check. -/
theorem searchVendors_fold_nodup (vendors : List Mongo.MVendor)
    (users : List Mongo.MUser) :
    ∀ (acc : List (Mongo.MVendor × Mongo.MUser)),
      ((acc.map (fun p => p.1.id)).Nodup) →
      (((users.foldl (fun results u =>
          match Mongo.vendorForUser vendors u with
          | none => results
          | some v =>
              if results.any (fun r => r.1.id == v.id) then results
              else results ++ [(v, u)]) acc).map (fun p => p.1.id)).Nodup) := by
  induction users with
  | nil =>
      intro acc h
      exact h
  | cons u t ih =>
      intro acc h
      simp only [List.foldl_cons]
      cases hvf : Mongo.vendorForUser vendors u with
      | none => exact ih acc h
      | some v =>
          cases hany : acc.any (fun r => r.1.id == v.id) with
          | true =>
              simp only [hany, if_true]
              exact ih acc h
          | false =>
              simp only [hany, Bool.false_eq_true, if_false]
              apply ih
              rw [List.map_append]
              simp only [List.map_cons, List.map_nil]
              rw [List.nodup_append]
              refine ⟨h, List.nodup_singleton _, ?_⟩
              intro x hx hx1
              rcases List.mem_singleton.1 hx1 with rfl
              rcases List.mem_map.1 hx with ⟨r, hr, hrid⟩
              have : ∀ r' ∈ acc, ¬ (r'.1.id == v.id) = true := by
                intro r' hr' hb
                have hcontra : acc.any (fun r => r.1.id == v.id) = true :=
                  List.any_eq_true.2 ⟨r', hr', hb⟩
                rw [hany] at hcontra
                cases hcontra
              exact this r hr (by rw [hrid]; exact beq_self_eq_true v.id)

/-- **C7** (counterexample): the result is *not* exactly the claimed union.
A stored vendor whose own businessName matches the query is dropped from
the results of both implementations when its owning user cannot be
resolved — even though it belongs to set (a) of the claimed union: in the
document store, `stOrphan` holds a user and a field-matching vendor whose
reference resolves to no user, and the search returns nothing; in the
memory store likewise. -/
theorem c7_counterexample_union_misses_ownerless_vendor :
    lcContains Ex.vOrphan.businessName "glass" = true ∧
    Ex.vOrphan ∈ Ex.stOrphan.vendors ∧
    Ex.stOrphan.users ≠ [] ∧
    Mongo.searchVendors Ex.stOrphan "glass" = [] ∧
    lcContains Ex.mvOrphan.businessName "glass" = true ∧
    Ex.mvOrphan ∈ mapValues Ex.memOrphan.vendors ∧
    Mem.searchVendors Ex.memOrphan "glass" = [] :=
  ⟨rfl, List.mem_singleton.2 rfl, by decide, rfl, rfl,
    List.mem_singleton.2 rfl, rfl⟩

/-- **C7** (amended): `searchVendors` returns the union of field-matched
and owner-name-matched vendors *restricted to vendors whose owning user
resolves*, de-duplicated by vendor id.  Conjunct 1 characterises the
memory store's result set exactly; conjuncts 2 and 3 prove the
at-most-once guarantee (distinct result vendor ids) for both stores under
the invariant that stored vendor ids are distinct; conjuncts 4 and 5 run
the claims own scenario: V1 (field match) and V2 (owner-name match only)
each appear exactly once, in both implementations. -/
theorem c7_amended_search_union_over_resolvable_owners :
    (∀ (s : Mem.State) (q : String) (v : Mem.Vendor) (u : Mem.User),
      (v, u) ∈ Mem.searchVendors s q ↔
        (v ∈ mapValues s.vendors ∧ mapGet s.users v.userId = some u ∧
          (lcContains v.businessName q || lcContains v.category q ||
            lcContains v.description q || lcContains u.name q) = true)) ∧
    (∀ (s : Mem.State) (q : String),
      (∀ p ∈ s.vendors, (p.2 : Mem.Vendor).id = p.1) →
      (s.vendors.map Prod.fst).Nodup →
      ((Mem.searchVendors s q).map (fun p => p.1.id)).Nodup) ∧
    (∀ (st : Mongo.State) (q : String),
      (st.vendors.map (fun v => v.id)).Nodup →
      ((Mongo.searchVendors st q).map (fun p => p.1.id)).Nodup) ∧
    Mem.searchVendors Ex.memBob "bob" = [(Ex.mvBob1, Ex.mu1), (Ex.mvBob2, Ex.mu2)] ∧
    Mongo.searchVendors Ex.stBobM "bob" = [(Ex.vBob1M, Ex.u1), (Ex.vBob2M, Ex.u2)] := by
  refine ⟨mem_searchVendors_iff, ?_, ?_, rfl, rfl⟩
  · intro s q hkeys hnodup
    have hf : ∀ (a : Mem.Vendor) (p : Mem.Vendor × Mem.User),
        (match mapGet s.users a.userId with
          | none => none
          | some u =>
              if lcContains a.businessName q || lcContains a.category q ||
                  lcContains a.description q || lcContains u.name q then
                some (a, u)
              else none) = some p → p.1 = a := by
      intro a p hp
      cases hg : mapGet s.users a.userId with
      | none => rw [hg] at hp; cases hp
      | some u' =>
          rw [hg] at hp
          have hp' : (if (lcContains a.businessName q || lcContains a.category q ||
              lcContains a.description q || lcContains u'.name q) = true then
              some (a, u') else none) = some p := hp
          by_cases hc : (lcContains a.businessName q || lcContains a.category q ||
              lcContains a.description q || lcContains u'.name q) = true
          · rw [if_pos hc] at hp'
            injection hp' with h
            rw [← h]
          · rw [if_neg hc] at hp'
            cases hp'
    unfold Mem.searchVendors
    have hsub := filterMap_fst_sublist (mapValues s.vendors)
      (fun v => match mapGet s.users v.userId with
        | none => none
        | some u =>
            if lcContains v.businessName q || lcContains v.category q ||
                lcContains v.description q || lcContains u.name q then
              some (v, u)
            else none) hf
    have hsub2 := hsub.map (fun v : Mem.Vendor => v.id)
    rw [List.map_map] at hsub2
    have hbig : ((mapValues s.vendors).map (fun v : Mem.Vendor => v.id)).Nodup := by
      unfold mapValues
      rw [List.map_map]
      have heq : s.vendors.map ((fun v : Mem.Vendor => v.id) ∘ (fun p => p.2)) =
          s.vendors.map Prod.fst :=
        List.map_congr_left (fun a ha => hkeys a ha)
      rw [heq]
      exact hnodup
    exact List.Nodup.sublist hsub2 hbig
  · intro st q hnodup
    have hf : ∀ (a : Mongo.MVendor) (p : Mongo.MVendor × Mongo.MUser),
        (Mongo.listUserDirect st.users a).map (fun u => (a, u)) = some p → p.1 = a := by
      intro a p hp
      rcases Option.map_eq_some'.1 hp with ⟨w, _, hw⟩
      rw [← hw]
    unfold Mongo.searchVendors
    apply searchVendors_fold_nodup
    have hsub := filterMap_fst_sublist
      (st.vendors.filter (fun v =>
        lcContains v.businessName q || lcContains v.category q ||
          lcContains v.description q))
      (fun v => (Mongo.listUserDirect st.users v).map (fun u => (v, u))) hf
    have hsub2 := hsub.map (fun v : Mongo.MVendor => v.id)
    rw [List.map_map] at hsub2
    have hsub3 : List.Sublist
        ((st.vendors.filter (fun v =>
          lcContains v.businessName q || lcContains v.category q ||
            lcContains v.description q)).map (fun v : Mongo.MVendor => v.id))
        (st.vendors.map (fun v : Mongo.MVendor => v.id)) :=
      (List.filter_sublist st.vendors).map (fun v : Mongo.MVendor => v.id)
    exact List.Nodup.sublist (hsub2.trans hsub3) hnodup

/-- Witness for the amended C7 at the bob scenario: both result lists have
distinct vendor ids. -/
theorem c7_amended_witness :
    ((Mem.searchVendors Ex.memBob "bob").map (fun p => p.1.id)).Nodup ∧
    ((Mongo.searchVendors Ex.stBobM "bob").map (fun p => p.1.id)).Nodup :=
  ⟨c7_amended_search_union_over_resolvable_owners.2.1 Ex.memBob "bob"
      (by decide) (by decide),
    c7_amended_search_union_over_resolvable_owners.2.2.1 Ex.stBobM "bob" (by decide)⟩

/-- **C8** (confirmed): for a reference that is at once ObjectId-shaped
(24-character string) and numeric-coercible, every resolver cascade tries
the native-reference (`findById`) lookup first and short-circuits on a hit:
the users list is universally quantified, so the later numeric and
string-equality strategies — whatever they would return on the same list —
are never consulted.  This covers `createVendorResolveUser` (createVendor,
middleware.ts 633-663) and the two per-vendor join cascades of
getVendor / getAllVendors / searchVendors. -/
theorem c8_native_lookup_attempted_first_and_short_circuits :
    ∀ (users : List Mongo.MUser) (s : String) (u : Mongo.MUser),
      s.length = 24 →
      (Ref.str s).toNumber ≠ none →
      users.find? (fun u2 => u2.oid == s) = some u →
      Mongo.createVendorResolveUser users (.str s) = some u ∧
      ∀ (v : Mongo.MVendor), v.userId = .str s →
        Mongo.getVendorUserDirect users v = some u ∧
        Mongo.listUserDirect users v = some u := by
  intro users s u h24 hnum hfind
  have h24b : (s.length == 24) = true := by rw [h24]; rfl
  have hne : s ≠ "" := by
    intro he
    rw [he] at h24
    exact absurd h24 (by decide)
  have hneb : (s != "") = true := bne_iff_ne.2 hne
  constructor
  · unfold Mongo.createVendorResolveUser
    simp only [h24b, if_true, Mongo.findById, hfind]
    rfl
  · intro v hv
    constructor
    · unfold Mongo.getVendorUserDirect
      rw [hv]
      simp only [Ref.truthy, Ref.toStr, hneb, h24b, Bool.and_self, if_true,
        Mongo.findById, hfind]
      rfl
    · unfold Mongo.listUserDirect
      rw [hv]
      simp only [h24b, if_true, Mongo.findById, hfind]
      rfl

/-- Witness for C8: with Carol (numeric id equal to the digit string) and
Dana (native reference equal to the digit string) both stored, resolution
of the digit string returns Dana by the native lookup, not Carol by the
numeric one, in all three cascades. -/
theorem c8_witness :
    Mongo.createVendorResolveUser [Ex.uBig, Ex.uDigits] (.str Ex.digits24) =
        some Ex.uDigits ∧
    Mongo.getVendorUserDirect [Ex.uBig, Ex.uDigits] Ex.vDigits = some Ex.uDigits ∧
    Mongo.listUserDirect [Ex.uBig, Ex.uDigits] Ex.vDigits = some Ex.uDigits :=
  ⟨(c8_native_lookup_attempted_first_and_short_circuits
      [Ex.uBig, Ex.uDigits] Ex.digits24 Ex.uDigits rfl (by decide) rfl).1,
    ((c8_native_lookup_attempted_first_and_short_circuits
      [Ex.uBig, Ex.uDigits] Ex.digits24 Ex.uDigits rfl (by decide) rfl).2
      Ex.vDigits rfl).1,
    ((c8_native_lookup_attempted_first_and_short_circuits
      [Ex.uBig, Ex.uDigits] Ex.digits24 Ex.uDigits rfl (by decide) rfl).2
      Ex.vDigits rfl).2⟩

/-- **C9** (confirmed): every modelled update/delete on a missing entity —
updateUser, updateVendor, updateService, updateBookingStatus, deleteService,
in both implementations — returns the empty result (`none`, or `false` for
deleteService) and leaves the state unchanged; no exception is raised (the
operations are total functions into `State × Option _` / `State × Bool`). -/
theorem c9_update_delete_missing_entity_returns_empty :
    (∀ (s : Mem.State) (id2 : Nat) (f : Mem.User → Mem.User),
      mapGet s.users id2 = none → Mem.updateUser s id2 f = (s, none)) ∧
    (∀ (s : Mem.State) (id2 : Nat) (f : Mem.Vendor → Mem.Vendor),
      mapGet s.vendors id2 = none → Mem.updateVendor s id2 f = (s, none)) ∧
    (∀ (s : Mem.State) (id2 : Nat) (f : Mem.Service → Mem.Service),
      mapGet s.services id2 = none → Mem.updateService s id2 f = (s, none)) ∧
    (∀ (s : Mem.State) (id2 : Nat) (status : String),
      mapGet s.bookings id2 = none → Mem.updateBookingStatus s id2 status = (s, none)) ∧
    (∀ (s : Mem.State) (id2 : Nat),
      mapGet s.services id2 = none → Mem.deleteService s id2 = (s, false)) ∧
    (∀ (st : Mongo.State) (id2 : Int) (f : Mongo.MUser → Mongo.MUser),
      st.users.find? (fun u => u.id == JsVal.num id2) = none →
      Mongo.updateUser st id2 f = (st, none)) ∧
    (∀ (st : Mongo.State) (id2 : Int) (f : Mongo.MVendor → Mongo.MVendor),
      st.vendors.find? (fun v => v.id == id2) = none →
      Mongo.updateVendor st id2 f = (st, none)) ∧
    (∀ (st : Mongo.State) (id2 : Int) (f : Mongo.MService → Mongo.MService),
      st.services.find? (fun sv => sv.id == id2) = none →
      Mongo.updateService st id2 f = (st, none)) ∧
    (∀ (st : Mongo.State) (id2 : Int) (status : String),
      st.bookings.find? (fun b => b.id == id2) = none →
      Mongo.updateBookingStatus st id2 status = (st, none)) ∧
    (∀ (st : Mongo.State) (id2 : Int),
      st.services.find? (fun sv => sv.id == id2) = none →
      Mongo.deleteService st id2 = (st, false)) := by
  refine ⟨?_, ?_, ?_, ?_, ?_, ?_, ?_, ?_, ?_, ?_⟩
  · intro s id2 f h
    unfold Mem.updateUser
    rw [h]
  · intro s id2 f h
    unfold Mem.updateVendor
    rw [h]
  · intro s id2 f h
    unfold Mem.updateService
    rw [h]
  · intro s id2 status h
    unfold Mem.updateBookingStatus
    rw [h]
  · intro s id2 h
    have hfind : s.services.find? (fun p => p.1 == id2) = none := by
      unfold mapGet at h
      cases hf : s.services.find? (fun p => p.1 == id2) with
      | none => rfl
      | some p => rw [hf] at h; cases h
    have hall := List.find?_eq_none.1 hfind
    have hfil : s.services.filter (fun p => p.1 != id2) = s.services :=
      List.filter_eq_self.2 (by
        intro p hp
        have hne2 : ¬ (p.1 == id2) = true := hall p hp
        have hfalse : (p.1 == id2) = false := by
          cases hb : (p.1 == id2)
          · rfl
          · exact absurd hb hne2
        show (!(p.1 == id2)) = true
        rw [hfalse]
        rfl)
    have hany : s.services.any (fun p => p.1 == id2) = false := by
      rw [List.any_eq_false]
      exact hall
    unfold Mem.deleteService mapDelete
    rw [hfil, hany]
  · intro st id2 f h
    unfold Mongo.updateUser
    rw [h]
  · intro st id2 f h
    unfold Mongo.updateVendor
    rw [h]
  · intro st id2 f h
    unfold Mongo.updateService
    rw [h]
  · intro st id2 status h
    unfold Mongo.updateBookingStatus
    rw [h]
  · intro st id2 h
    unfold Mongo.deleteService
    rw [h]

/-- Witness for C9: every operation on the unknown id 42 in the concrete
single-user stores returns empty and the unchanged store. -/
theorem c9_witness :
    Mem.updateUser Ex.memOrphan 42 (fun u => u) = (Ex.memOrphan, none) ∧
    Mem.updateVendor Ex.memOrphan 42 (fun v => v) = (Ex.memOrphan, none) ∧
    Mem.updateService Ex.memOrphan 42 (fun sv => sv) = (Ex.memOrphan, none) ∧
    Mem.updateBookingStatus Ex.memOrphan 42 "confirmed" = (Ex.memOrphan, none) ∧
    Mem.deleteService Ex.memOrphan 42 = (Ex.memOrphan, false) ∧
    Mongo.updateUser Ex.stOrphan 42 (fun u => u) = (Ex.stOrphan, none) ∧
    Mongo.updateVendor Ex.stOrphan 42 (fun v => v) = (Ex.stOrphan, none) ∧
    Mongo.updateService Ex.stOrphan 42 (fun sv => sv) = (Ex.stOrphan, none) ∧
    Mongo.updateBookingStatus Ex.stOrphan 42 "confirmed" = (Ex.stOrphan, none) ∧
    Mongo.deleteService Ex.stOrphan 42 = (Ex.stOrphan, false) :=
  ⟨c9_update_delete_missing_entity_returns_empty.1 Ex.memOrphan 42 (fun u => u) rfl,
    c9_update_delete_missing_entity_returns_empty.2.1 Ex.memOrphan 42 (fun v => v) rfl,
    c9_update_delete_missing_entity_returns_empty.2.2.1 Ex.memOrphan 42 (fun sv => sv) rfl,
    c9_update_delete_missing_entity_returns_empty.2.2.2.1 Ex.memOrphan 42 "confirmed" rfl,
    c9_update_delete_missing_entity_returns_empty.2.2.2.2.1 Ex.memOrphan 42 rfl,
    c9_update_delete_missing_entity_returns_empty.2.2.2.2.2.1 Ex.stOrphan 42 (fun u => u) rfl,
    c9_update_delete_missing_entity_returns_empty.2.2.2.2.2.2.1 Ex.stOrphan 42 (fun v => v) rfl,
    c9_update_delete_missing_entity_returns_empty.2.2.2.2.2.2.2.1 Ex.stOrphan 42 (fun sv => sv) rfl,
    c9_update_delete_missing_entity_returns_empty.2.2.2.2.2.2.2.2.1 Ex.stOrphan 42 "confirmed" rfl,
    c9_update_delete_missing_entity_returns_empty.2.2.2.2.2.2.2.2.2 Ex.stOrphan 42 rfl⟩

/-- **C10** (confirmed, implicit): `getVendorByUserId` substitutes no
fallback: a returned vendor is always a stored one (conjunct 1); the result
is `undefined` exactly when all four lookup strategies miss (conjunct 2) —
regardless of what other vendors and users exist; the memory store returns
`undefined` exactly when no stored vendor carries the argument as its
`userId` (conjunct 3); and in the service-creation route, the not-found
result is what forces the non-vendor error (conjunct 4) while a found
vendor leaves the vendor collection unchanged — no auto-provisioning
(conjunct 5).  Both implementations are pure reads: the state is a
non-mutated argument. -/
theorem c10_getVendorByUserId_not_found_without_fallback :
    (∀ (st : Mongo.State) (r : Ref) (v : Mongo.MVendor),
      Mongo.getVendorByUserId st r = some v → v ∈ st.vendors) ∧
    (∀ (st : Mongo.State) (r : Ref),
      Mongo.getVendorByUserId st r = none ↔
        (Mongo.guStrat1 st r = none ∧ Mongo.guStrat2 st r = none ∧
          Mongo.guStrat3 st r = none ∧ Mongo.guStrat4 st r = none)) ∧
    (∀ (s : Mem.State) (uid : Nat),
      Mem.getVendorByUserId s uid = none ↔
        ∀ v ∈ mapValues s.vendors, ¬ ((v.userId == uid) = true)) ∧
    (∀ (st : Mongo.State) (au : Routes.AuthUser) (body : Routes.ServiceBody),
      Mongo.getVendorByUserId st au.id = none → au.role ≠ "vendor" →
      Routes.postApiServices st au body =
        (st, .error "Vendor profile not found and user is not a vendor")) ∧
    (∀ (st : Mongo.State) (au : Routes.AuthUser) (body : Routes.ServiceBody)
        (v : Mongo.MVendor),
      Mongo.getVendorByUserId st au.id = some v →
      (Routes.postApiServices st au body).1.vendors = st.vendors) := by
  refine ⟨?_, ?_, ?_, ?_, ?_⟩
  · intro st r v h
    unfold Mongo.getVendorByUserId at h
    rcases orElseO_eq_some_iff.1 h with h3 | ⟨_, h3⟩
    · rcases orElseO_eq_some_iff.1 h3 with h2 | ⟨_, h2⟩
      · rcases orElseO_eq_some_iff.1 h2 with h1 | ⟨_, h1⟩
        · unfold Mongo.guStrat1 at h1
          cases hg : Mongo.guMongoObjectId r with
          | none => rw [hg] at h1; cases h1
          | some s2 =>
              rw [hg] at h1
              exact List.mem_of_find?_eq_some h1
        · unfold Mongo.guStrat2 at h1
          cases hg : Mongo.guNumericId r with
          | none => rw [hg] at h1; cases h1
          | some n =>
              rw [hg] at h1
              have h1a : (if (n != 0) = true then
                  match st.users.find? (fun u => u.id == JsVal.num n) with
                  | some user => st.vendors.find? (fun v2 => v2.userId == Ref.oid user.oid)
                  | none => none
                else none) = some v := h1
              by_cases hn : (n != 0) = true
              · rw [if_pos hn] at h1a
                cases hu : st.users.find? (fun u => u.id == JsVal.num n) with
                | none => rw [hu] at h1a; cases h1a
                | some user =>
                    rw [hu] at h1a
                    exact List.mem_of_find?_eq_some h1a
              · rw [if_neg hn] at h1a; cases h1a
      · unfold Mongo.guStrat3 at h2
        cases hg : Mongo.guMongoObjectId r with
        | none => rw [hg] at h2; cases h2
        | some s2 =>
            rw [hg] at h2
            have h2a : (match Mongo.findById st.users (.str s2) with
                | some user => st.vendors.find? (fun v2 => v2.userId == Ref.oid user.oid)
                | none => none) = some v := h2
            cases hu : Mongo.findById st.users (.str s2) with
            | none => rw [hu] at h2a; cases h2a
            | some user =>
                rw [hu] at h2a
                exact List.mem_of_find?_eq_some h2a
    · unfold Mongo.guStrat4 at h3
      cases hg : Mongo.guNumericId r with
      | none => rw [hg] at h3; cases h3
      | some n =>
          rw [hg] at h3
          have h3a : (if (n != 0) = true then
              st.vendors.find? (fun v2 => v2.userId == Ref.num n)
            else none) = some v := h3
          by_cases hn : (n != 0) = true
          · rw [if_pos hn] at h3a
            exact List.mem_of_find?_eq_some h3a
          · rw [if_neg hn] at h3a; cases h3a
  · intro st r
    unfold Mongo.getVendorByUserId
    rw [orElseO_eq_none_iff, orElseO_eq_none_iff, orElseO_eq_none_iff]
    tauto
  · intro s uid
    unfold Mem.getVendorByUserId
    exact List.find?_eq_none
  · intro st au body h hrole
    have hroleb : (au.role == "vendor") = false := by
      rw [beq_eq_false_iff_ne]
      exact hrole
    unfold Routes.postApiServices
    rw [h, hroleb]
    rfl
  · intro st au body v h
    unfold Routes.postApiServices
    rw [h]
    rfl

/-- Witness for C10: in the bob store, the reference `.num 1` resolves to
the stored vendor V1 and the service route never touches the vendor
collection; the reference `.num 5` resolves to nothing although two
vendors and two users exist, and the non-vendor requester Eve is turned
away with the not-found error. -/
theorem c10_witness :
    Ex.vBob1M ∈ Ex.stBobM.vendors ∧
    (Routes.postApiServices Ex.stBobM Ex.auAlice Ex.bodyLawn).1.vendors =
      Ex.stBobM.vendors ∧
    Routes.postApiServices Ex.stBobM Ex.auEve Ex.bodyLawn =
      (Ex.stBobM, .error "Vendor profile not found and user is not a vendor") :=
  ⟨c10_getVendorByUserId_not_found_without_fallback.1 Ex.stBobM (.num 1) Ex.vBob1M rfl,
    c10_getVendorByUserId_not_found_without_fallback.2.2.2.2 Ex.stBobM Ex.auAlice
      Ex.bodyLawn Ex.vBob1M rfl,
    c10_getVendorByUserId_not_found_without_fallback.2.2.2.1 Ex.stBobM Ex.auEve
      Ex.bodyLawn rfl (by decide)⟩
